import Mathlib

/-!
Verification of the nwidget property-binding core (binding.h, metaobject.h).

The development is a shallow embedding of the two headers:

* MProp models the class MetaProperty of metaobject.h, instantiated at the
  value type int: an owning-object id plus a static descriptor carrying the
  property name and the optional notify-signal name.
* BExpr models the class BindingExpr of binding.h at the value type int: an
  n-ary tree whose leaves are literals or property accessors and whose inner
  nodes carry the builtin actions (arithmetic, comparison, logical, bitwise,
  unary, the eager ternary cond, and the identity action of makeBindingExpr).
  BExpr.evalT is BindingExpr::eval, instrumented with the left-to-right list
  of property reads it performs; BExpr.isObservable is the recursive trait
  impl::binding::is_observable.
* World models the Qt runtime state the wiring layer manipulates: a heap of
  property values, the list of live QSignalMapper fan-in objects with their
  signal connections (notify to map, destroyed to deleteLater, both with
  Qt::UniqueConnection semantics), their sender mappings, their mappedInt
  callback connections, and their deleteLater flag.  World.bindCore is the
  private BindingExpr::bindTo(receiver, func, type, name); World.fire is a
  synchronous delivery of one notify-signal emission; World.destroyObj is the
  destruction of a QObject (emits destroyed, drops its connections and
  mappings, destroys child fan-ins); World.flush runs the deferred deletions
  that deleteLater scheduled.  Every call of the captured slot is recorded as
  a LogEntry, with the list of property reads the evaluation performed and
  whether any of them touched an already-destroyed object.
* The MProp.assign family models the assignment, increment and compound
  assignment operators of MetaProperty, each returning the accessor trace
  (the exact sequence of get and set calls the operator performs).
* CExpr is a second, typed evaluation model used for the runtime-error
  claims: values are ints or object pointers (possibly null), evaluation
  returns Except, the member and invoke actions fail exactly where
  binding.h places Q_ASSERT, the division action fails on a zero divisor,
  and the content-of action dereferences with no assertion at all.
-/

set_option maxHeartbeats 1000000

/-- Object identity: one id per QObject instance. -/
abbrev ObjId := Nat

/-- The static part of a MetaProperty: the property name (Info::name) and the
optional notify signal (the Notify functor; none when Notify is void, in which
case hasNotifySignal is false). -/
structure PropDescr where
  pname : String
  notifySig : Option String
deriving DecidableEq

/-- MetaProperty<C, Info, T, Getter, Setter, Notify, Reset> at T = int: an
owning-object pointer plus the static descriptor. -/
structure MProp where
  obj : ObjId
  descr : PropDescr
deriving DecidableEq

/-- MetaProperty::hasNotifySignal. -/
def MProp.observable (p : MProp) : Bool := p.descr.notifySig.isSome

/-- Info::bindingName(): the string "nwidget_binding_on_" followed by the
property name, as produced by the N_PROPERTY macro. -/
def bindingNameOf (p : MProp) : String := "nwidget_binding_on_" ++ p.descr.pname

/-- The binary actions generated by N_IMPL_ACTION_BE. -/
inductive BOp
  | add | sub | mul | div
  | beq | bne | blt | ble | bgt | bge
  | land | lor
  | band | bor | bxor | shl | shr
deriving DecidableEq

/-- The unary actions generated by N_IMPL_ACTION_UE (address-of and
content-of are not representable at the int instantiation and are omitted). -/
inductive UOp
  | uplus | uminus | unot | ubnot
deriving DecidableEq

/-- BindingExpr at the int instantiation.  A node holds its action and its
operand tuple; operands are literals, MetaProperty accessors or
sub-expressions, held by value.  The wrap constructor is makeBindingExpr with
the default ActionEmpty (used by MetaProperty::operator= from an accessor). -/
inductive BExpr
  | lit (v : Int)
  | prop (p : MProp)
  | bin (op : BOp) (l r : BExpr)
  | un (op : UOp) (e : BExpr)
  | cond (c a b : BExpr)
  | wrap (e : BExpr)
deriving DecidableEq

/-- Semantics of each binary action functor (C++ int semantics: division and
remainder truncate toward zero, comparisons and logical operators produce 0
or 1, logical operators see already-evaluated operands). -/
def evalBOp : BOp → Int → Int → Int
  | .add, a, b => a + b
  | .sub, a, b => a - b
  | .mul, a, b => a * b
  | .div, a, b => Int.tdiv a b
  | .beq, a, b => if a = b then 1 else 0
  | .bne, a, b => if a = b then 0 else 1
  | .blt, a, b => if a < b then 1 else 0
  | .ble, a, b => if a ≤ b then 1 else 0
  | .bgt, a, b => if b < a then 1 else 0
  | .bge, a, b => if b ≤ a then 1 else 0
  | .land, a, b => if a ≠ 0 ∧ b ≠ 0 then 1 else 0
  | .lor, a, b => if a ≠ 0 ∨ b ≠ 0 then 1 else 0
  | .band, a, b => Int.land a b
  | .bor, a, b => Int.lor a b
  | .bxor, a, b => Int.xor a b
  | .shl, a, b => a <<< b
  | .shr, a, b => a >>> b

/-- Semantics of each unary action functor. -/
def evalUOp : UOp → Int → Int
  | .uplus, a => a
  | .uminus, a => -a
  | .unot, a => if a = 0 then 1 else 0
  | .ubnot, a => Int.lnot a

/-- The heap of current property values: object id and property name to
value. -/
abbrev Heap := ObjId → String → Int

/-- BindingExpr::eval, instrumented: impl::binding::eval evaluates every
operand left to right (a literal to itself, an accessor through get(), a
sub-expression recursively) and only then applies the action functor to the
evaluated tuple.  The second component records every property get() in the
order it happens. -/
def BExpr.evalT (h : Heap) : BExpr → Int × List MProp
  | .lit v => (v, [])
  | .prop p => (h p.obj p.descr.pname, [p])
  | .bin op l r =>
      let a := l.evalT h
      let b := r.evalT h
      (evalBOp op a.1 b.1, a.2 ++ b.2)
  | .un op e =>
      let a := e.evalT h
      (evalUOp op a.1, a.2)
  | .cond c a b =>
      let x := c.evalT h
      let y := a.evalT h
      let z := b.evalT h
      (if x.1 ≠ 0 then y.1 else z.1, x.2 ++ y.2 ++ z.2)
  | .wrap e => e.evalT h

/-- BindingExpr::eval, value only. -/
def BExpr.eval (e : BExpr) (h : Heap) : Int := (e.evalT h).1

/-- All MetaProperty leaves of the operand tree, left to right (the operands
impl::binding::bind0 walks with for_each). -/
def BExpr.props : BExpr → List MProp
  | .lit _ => []
  | .prop p => [p]
  | .bin _ l r => l.props ++ r.props
  | .un _ e => e.props
  | .cond c a b => c.props ++ a.props ++ b.props
  | .wrap e => e.props

/-- impl::binding::is_observable, the structural compile-time trait: a
literal operand is not observable, a MetaProperty operand is observable iff
it has a notify signal, a BindingExpr is observable iff some operand is. -/
def BExpr.isObservable : BExpr → Bool
  | .lit _ => false
  | .prop p => p.observable
  | .bin _ l r => l.isObservable || r.isObservable
  | .un _ e => e.isObservable
  | .cond c a b => c.isObservable || (a.isObservable || b.isObservable)
  | .wrap e => e.isObservable

/-- A notification channel on a source object: a notify signal (identified by
its name) or the QObject::destroyed signal. -/
inductive Chan
  | notifyCh (sig : String)
  | destroyedCh
deriving DecidableEq

/-- The target of a binding, as accepted by the private bindTo: a
MetaProperty (applied through set), a slot or functor invocable with the
result value, or a slot or functor invocable with no arguments. -/
inductive Tgt
  | tprop (p : MProp)
  | tfunc1 (id : Nat)
  | tfunc0 (id : Nat)
deriving DecidableEq

/-- One execution of the captured call lambda: the target it applied to, the
value it applied (none for a zero-argument slot, which is invoked without
evaluating the expression), the property reads the evaluation performed, and
whether some read touched an already-destroyed object (a dangling
dereference in the C++ code). -/
structure LogEntry where
  target : Tgt
  value : Option Int
  reads : List MProp
  dangling : Bool
deriving DecidableEq

/-- A QSignalMapper fan-in object: its parent (the binding receiver; none
when bindTo was called with a null receiver), its objectName (the binding
name used for the findChild lookup), its incoming signal connections
(source object and channel; a notifyCh connection targets the map slot, a
destroyedCh connection targets deleteLater), its setMapping entries, its
mappedInt connections (each carrying the captured expression and target),
and whether deleteLater has been called on it. -/
structure FanIn where
  parent : Option ObjId
  name : String
  srcConns : List (ObjId × Chan)
  mappings : List ObjId
  callbacks : List (BExpr × Tgt)
  pendingDelete : Bool
deriving DecidableEq

/-- Connection insertion with Qt::UniqueConnection semantics: adding an
already-present connection is a no-op. -/
def insertU {α : Type} [DecidableEq α] (l : List α) (a : α) : List α :=
  if a ∈ l then l else l ++ [a]

/-- impl::binding::bind1: for a MetaProperty with a notify signal, connect
the owner's destroyed signal to the mapper's deleteLater and the notify
signal to the mapper's map slot (both UniqueConnection) and register the
owner with setMapping; for a property without a notify signal, do nothing. -/
def FanIn.bind1 (F : FanIn) (p : MProp) : FanIn :=
  match p.descr.notifySig with
  | none => F
  | some sig =>
      { F with
        srcConns := insertU (insertU F.srcConns (p.obj, Chan.destroyedCh)) (p.obj, Chan.notifyCh sig),
        mappings := insertU F.mappings p.obj }

/-- impl::binding::bind0 and bind: recursively bind1 every MetaProperty leaf
of the expression, left to right. -/
def FanIn.bindAll (F : FanIn) (e : BExpr) : FanIn :=
  e.props.foldl FanIn.bind1 F

/-- The QObject::connect of the mapper's mappedInt signal to the lambda that
captures the call closure and a copy of the expression. -/
def FanIn.addCb (F : FanIn) (e : BExpr) (t : Tgt) : FanIn :=
  { F with callbacks := F.callbacks ++ [(e, t)] }

/-- A freshly constructed QSignalMapper(receiver) with setObjectName(name). -/
def FanIn.fresh (parent : Option ObjId) (n : String) : FanIn :=
  ⟨parent, n, [], [], [], false⟩

/-- The whole runtime state: property values, live fan-in objects (in
creation order), the set of already-destroyed objects, and the log of slot
calls performed so far. -/
structure World where
  heap : Heap
  fanIns : List FanIn
  dead : List ObjId
  log : List LogEntry

/-- A heap after one setter write. -/
def writeAt (h : Heap) (o : ObjId) (n : String) (v : Int) : Heap :=
  fun o2 n2 => if o2 = o ∧ n2 = n then v else h o2 n2

/-- The state before any binding exists. -/
def World.init (h : Heap) : World := ⟨h, [], [], []⟩

/-- A plain (non-notifying) property write. -/
def World.writeProp (W : World) (o : ObjId) (n : String) (v : Int) : World :=
  { W with heap := writeAt W.heap o n v }

/-- The call lambda of the private bindTo: a MetaProperty target gets
func.set(expr.eval()); a one-argument slot gets func(expr.eval()); a
zero-argument slot is invoked without evaluating the expression.  Every
invocation is logged. -/
def World.call (W : World) (t : Tgt) (e : BExpr) : World :=
  match t with
  | .tprop p =>
      let r := e.evalT W.heap
      { W with
        heap := writeAt W.heap p.obj p.descr.pname r.1,
        log := W.log ++ [⟨t, some r.1, r.2, r.2.any (fun q => decide (q.obj ∈ W.dead))⟩] }
  | .tfunc1 _ =>
      let r := e.evalT W.heap
      { W with log := W.log ++ [⟨t, some r.1, r.2, r.2.any (fun q => decide (q.obj ∈ W.dead))⟩] }
  | .tfunc0 _ =>
      { W with log := W.log ++ [⟨t, none, [], false⟩] }

/-- The findChild predicate: a direct child of the receiver whose objectName
is the binding name. -/
def slotPred (r : ObjId) (n : String) (F : FanIn) : Bool :=
  decide (F.parent = some r) && decide (F.name = n)

/-- Apply f to the first list element satisfying p (the child findChild
returns), leaving the rest unchanged. -/
def mapFirst {α : Type} (p : α → Bool) (f : α → α) : List α → List α
  | [] => []
  | x :: rest => if p x then f x :: rest else x :: mapFirst p f rest

/-- The fresh-mapper path of bindTo: new QSignalMapper(receiver) with the
binding name, bind every observable leaf, connect mappedInt to the call
lambda, then call once. -/
def World.bindNew (W : World) (e : BExpr) (recv : Option ObjId) (n : String) (t : Tgt) : World :=
  World.call
    { W with fanIns := W.fanIns ++ [((FanIn.fresh recv n).bindAll e).addCb e t] } t e

/-- The private BindingExpr::bindTo(receiver, func, type, name).  With a null
receiver there is no findChild lookup and a fresh mapper is always created.
Otherwise, if a direct child with the binding name exists: when the
expression is observable its mappedInt connections are dropped
(binding->disconnect() disconnects the signals of the mapper itself, not the
incoming source connections), the leaves are re-bound in place, a new
callback is connected and one call is performed; when the expression is not
observable, one call is performed and the existing mapper is scheduled for
deferred deletion.  When no child exists a fresh mapper is created. -/
def World.bindCore (W : World) (e : BExpr) (recv : Option ObjId) (n : String) (t : Tgt) : World :=
  match recv with
  | none => W.bindNew e none n t
  | some r =>
      match W.fanIns.find? (slotPred r n) with
      | none => W.bindNew e (some r) n t
      | some _ =>
          if e.isObservable then
            World.call
              { W with
                fanIns := mapFirst (slotPred r n)
                  (fun F => (FanIn.bindAll { F with callbacks := [] } e).addCb e t) W.fanIns } t e
          else
            let W2 := W.call t e
            { W2 with
              fanIns := mapFirst (slotPred r n)
                (fun F => { F with pendingDelete := true }) W2.fanIns }

/-- The public bindTo(MetaProperty) overload: receiver is the property
owner, the binding name is Info::bindingName(). -/
def World.bindProp (W : World) (e : BExpr) (tp : MProp) : World :=
  W.bindCore e (some tp.obj) (bindingNameOf tp) (Tgt.tprop tp)

/-- Run the mappedInt connections of one mapper in order. -/
def World.runCbs (W : World) (cbs : List (BExpr × Tgt)) : World :=
  cbs.foldl (fun W2 c => W2.call c.2 c.1) W

/-- Synchronous delivery of one emission of a notify signal: every live
mapper connected to that signal has its map slot invoked; map emits
mappedInt (once) when the sender has a registered mapping, which runs the
mapper's callback connections. -/
def World.fire (W : World) (o : ObjId) (sig : String) : World :=
  W.fanIns.foldl
    (fun W2 F =>
      if (o, Chan.notifyCh sig) ∈ F.srcConns ∧ o ∈ F.mappings then W2.runCbs F.callbacks
      else W2)
    W

/-- What the destruction of object o does to a surviving mapper: its
destroyed signal invokes deleteLater on every mapper holding a destroyedCh
connection from o, and every connection and mapping whose sender is o is
removed. -/
def FanIn.dropSource (o : ObjId) (F : FanIn) : FanIn :=
  { F with
    pendingDelete := F.pendingDelete || decide ((o, Chan.destroyedCh) ∈ F.srcConns),
    srcConns := F.srcConns.filter (fun c => decide (c.1 ≠ o)),
    mappings := F.mappings.filter (fun m => decide (m ≠ o)) }

/-- Destruction of a QObject: its destroyed signal fires (scheduling every
mapper holding a destroyedCh connection from it for deferred deletion via
deleteLater), its child mappers are destroyed with it, every connection and
mapping from it is removed, and it is recorded as dead. -/
def World.destroyObj (W : World) (o : ObjId) : World :=
  { W with
    fanIns :=
      (W.fanIns.filter (fun F => decide (F.parent ≠ some o))).map (FanIn.dropSource o),
    dead := W.dead ++ [o] }

/-- The event loop processing the pending deleteLater deletions. -/
def World.flush (W : World) : World :=
  { W with fanIns := W.fanIns.filter (fun F => ! F.pendingDelete) }

/-- The external operations an application can drive the wiring layer with. -/
inductive Op
  | obind (e : BExpr) (tp : MProp)
  | obindF (e : BExpr) (recv : Option ObjId) (n : String) (t : Tgt)
  | owrite (o : ObjId) (n : String) (v : Int)
  | ofire (o : ObjId) (sig : String)
  | odestroy (o : ObjId)
  | oflush

/-- One step of the external dispatch. -/
def applyOp (W : World) : Op → World
  | .obind e tp => W.bindProp e tp
  | .obindF e recv n t => W.bindCore e recv n t
  | .owrite o n v => W.writeProp o n v
  | .ofire o sig => W.fire o sig
  | .odestroy o => W.destroyObj o
  | .oflush => W.flush

/-- A whole run from an initial heap. -/
def run (h : Heap) (ops : List Op) : World := ops.foldl applyOp (World.init h)

/-- Number of live fan-ins owned by receiver r under binding name n. -/
def slotCount (W : World) (r : ObjId) (n : String) : Nat :=
  W.fanIns.countP (slotPred r n)

/-- The value the call lambda applies for a given target kind: the evaluated
expression for a property or one-argument target, nothing for a
zero-argument slot. -/
def callValue (t : Tgt) (e : BExpr) (h : Heap) : Option Int :=
  match t with
  | .tfunc0 _ => none
  | _ => some (e.eval h)

/-- The property reads one call performs for a given target kind. -/
def callReads (t : Tgt) (e : BExpr) : List MProp :=
  match t with
  | .tfunc0 _ => []
  | _ => e.props

/-- Whether one call's reads touch an already-destroyed object. -/
def callDangl (t : Tgt) (e : BExpr) (W : World) : Bool :=
  (callReads t e).any (fun q => decide (q.obj ∈ W.dead))

/-- MetaProperty::operator=(const Type and) : an immediate set(val), no
wiring involved. -/
def MProp.assignVal (p : MProp) (v : Int) (W : World) : World :=
  W.writeProp p.obj p.descr.pname v

/-- MetaProperty::operator=(MetaProperty) : makeBindingExpr(prop) wrapped in
the identity action, then bindTo(*this). -/
def MProp.assignProp (lhs rhs : MProp) (W : World) : World :=
  W.bindProp (BExpr.wrap (BExpr.prop rhs)) lhs

/-- MetaProperty::operator=(const BindingExpr and) : expr.bindTo(*this). -/
def MProp.assignExpr (lhs : MProp) (e : BExpr) (W : World) : World :=
  W.bindProp e lhs

/-- One accessor call performed by an operator of MetaProperty: a get
returning v, or a set writing v. -/
inductive AccOp
  | aget (v : Int)
  | aset (v : Int)
deriving DecidableEq

/-- Whether an accessor call is a get. -/
def AccOp.isGet : AccOp → Bool
  | .aget _ => true
  | .aset _ => false

/-- operator++() : T v = get(); set(++v); return v; -/
def MProp.incPre (p : MProp) (W : World) : World × Int × List AccOp :=
  let v := W.heap p.obj p.descr.pname
  (W.writeProp p.obj p.descr.pname (v + 1), v + 1, [AccOp.aget v, AccOp.aset (v + 1)])

/-- operator++(int) : const T v = get(); set(++get()); return v;  Note the
second get() inside the set argument. -/
def MProp.incPost (p : MProp) (W : World) : World × Int × List AccOp :=
  let v := W.heap p.obj p.descr.pname
  let v2 := W.heap p.obj p.descr.pname
  (W.writeProp p.obj p.descr.pname (v2 + 1), v, [AccOp.aget v, AccOp.aget v2, AccOp.aset (v2 + 1)])

/-- operator--() : T v = get(); set(--v); return v; -/
def MProp.decPre (p : MProp) (W : World) : World × Int × List AccOp :=
  let v := W.heap p.obj p.descr.pname
  (W.writeProp p.obj p.descr.pname (v - 1), v - 1, [AccOp.aget v, AccOp.aset (v - 1)])

/-- operator--(int) : const T v = get(); set(--get()); return v; -/
def MProp.decPost (p : MProp) (W : World) : World × Int × List AccOp :=
  let v := W.heap p.obj p.descr.pname
  let v2 := W.heap p.obj p.descr.pname
  (W.writeProp p.obj p.descr.pname (v2 - 1), v, [AccOp.aget v, AccOp.aget v2, AccOp.aset (v2 - 1)])

/-- The shared shape of every compound assignment operator of MetaProperty:
set(get() OP v), one get followed by one set of the combined value. -/
def MProp.opAssign (p : MProp) (f : Int → Int → Int) (x : Int) (W : World) : World × List AccOp :=
  let v := W.heap p.obj p.descr.pname
  (W.writeProp p.obj p.descr.pname (f v x), [AccOp.aget v, AccOp.aset (f v x)])

/-- operator+= -/
def MProp.addA (p : MProp) (x : Int) (W : World) : World × List AccOp :=
  p.opAssign (fun a b => a + b) x W

/-- operator-= -/
def MProp.subA (p : MProp) (x : Int) (W : World) : World × List AccOp :=
  p.opAssign (fun a b => a - b) x W

/-- operator*= -/
def MProp.mulA (p : MProp) (x : Int) (W : World) : World × List AccOp :=
  p.opAssign (fun a b => a * b) x W

/-- operator/= (C++ int division truncates toward zero). -/
def MProp.divA (p : MProp) (x : Int) (W : World) : World × List AccOp :=
  p.opAssign Int.tdiv x W

/-- operator%= (C++ int remainder truncates toward zero). -/
def MProp.modA (p : MProp) (x : Int) (W : World) : World × List AccOp :=
  p.opAssign Int.tmod x W

/-- operator^= -/
def MProp.xorA (p : MProp) (x : Int) (W : World) : World × List AccOp :=
  p.opAssign Int.xor x W

/-- operator&= -/
def MProp.andA (p : MProp) (x : Int) (W : World) : World × List AccOp :=
  p.opAssign Int.land x W

/-- operator|= -/
def MProp.orA (p : MProp) (x : Int) (W : World) : World × List AccOp :=
  p.opAssign Int.lor x W

/-- operator<<= -/
def MProp.shlA (p : MProp) (x : Int) (W : World) : World × List AccOp :=
  p.opAssign (fun a b => a <<< b) x W

/-- operator>>= -/
def MProp.shrA (p : MProp) (x : Int) (W : World) : World × List AccOp :=
  p.opAssign (fun a b => a >>> b) x W

/-- A C++ value in the typed evaluation model: an int or an object pointer
(none is nullptr). -/
inductive CVal
  | vint (i : Int)
  | vref (o : Option ObjId)
deriving DecidableEq

/-- The static type of a value. -/
inductive CTy
  | tint
  | tref
deriving DecidableEq

/-- The type of a value. -/
def CVal.ty : CVal → CTy
  | .vint _ => .tint
  | .vref _ => .tref

/-- Whether a value is a non-null one (ints and non-null pointers). -/
def CVal.nonNull : CVal → Bool
  | .vref none => false
  | _ => true

/-- Expression operands in the typed model: literals (including pointer
literals), int-valued property accessors, the ActionMember and ActionInvoke
actions with a pointer base, the ActionAdd and ActionDiv arithmetic
actions, the ActionContentOf pointer dereference, and the ternary
conditional. -/
inductive CExpr
  | lit (v : CVal)
  | propv (o : ObjId) (n : String)
  | member (base : CExpr) (field : String)
  | invoke (base : CExpr) (fn : String) (arg : CExpr)
  | addv (l r : CExpr)
  | divv (l r : CExpr)
  | contentOf (e : CExpr)
  | condv (c a b : CExpr)
deriving DecidableEq

/-- The compile-time type of an expression; none for programs the C++
compiler rejects. -/
def CExpr.ty : CExpr → Option CTy
  | .lit v => some v.ty
  | .propv _ _ => some .tint
  | .member b _ =>
      match b.ty with
      | some .tref => some .tint
      | _ => none
  | .invoke b _ a =>
      match b.ty, a.ty with
      | some .tref, some .tint => some .tint
      | _, _ => none
  | .addv l r =>
      match l.ty, r.ty with
      | some .tint, some .tint => some .tint
      | _, _ => none
  | .divv l r =>
      match l.ty, r.ty with
      | some .tint, some .tint => some .tint
      | _, _ => none
  | .contentOf e =>
      match e.ty with
      | some .tref => some .tint
      | _ => none
  | .condv c a b =>
      match c.ty, a.ty, b.ty with
      | some .tint, some ta, some tb => if ta = tb then some ta else none
      | _, _, _ => none

/-- The member heap: value of each named data member of a live object. -/
abbrev HeapV := ObjId → String → Int

/-- Method semantics: result of invoking a named method of an object on an
int argument. -/
abbrev Meths := ObjId → String → Int → Int

/-- Pointee store: the int value a non-null pointer dereferences to. -/
abbrev Pointees := ObjId → Int

/-- Evaluation in the typed model.  All operands are evaluated before the
action is applied.  ActionMember and ActionInvoke carry the Q_ASSERT(obj)
of binding.h: a null base pointer is an assertion abort, modeled as error.
ActionDiv is C++ integer division: a zero divisor is a runtime failure
(modeled as error) that no assertion guards.  ActionContentOf dereferences
its pointer operand with no assertion at all: a null pointer is a runtime
failure.  The remaining error cases are ill-typed applications, which the
C++ compiler rejects and ty excludes. -/
def CExpr.evalV (h : HeapV) (m : Meths) (dh : Pointees) : CExpr → Except Unit CVal
  | .lit v => .ok v
  | .propv o n => .ok (.vint (h o n))
  | .member b f =>
      match b.evalV h m dh with
      | .ok (.vref (some o)) => .ok (.vint (h o f))
      | _ => .error ()
  | .invoke b f a =>
      match b.evalV h m dh, a.evalV h m dh with
      | .ok (.vref (some o)), .ok (.vint i) => .ok (.vint (m o f i))
      | _, _ => .error ()
  | .addv l r =>
      match l.evalV h m dh, r.evalV h m dh with
      | .ok (.vint x), .ok (.vint y) => .ok (.vint (x + y))
      | _, _ => .error ()
  | .divv l r =>
      match l.evalV h m dh, r.evalV h m dh with
      | .ok (.vint x), .ok (.vint y) =>
          if y = 0 then .error () else .ok (.vint (Int.tdiv x y))
      | _, _ => .error ()
  | .contentOf e =>
      match e.evalV h m dh with
      | .ok (.vref (some o)) => .ok (.vint (dh o))
      | _ => .error ()
  | .condv c a b =>
      match c.evalV h m dh, a.evalV h m dh, b.evalV h m dh with
      | .ok (.vint x), .ok va, .ok vb => .ok (if x ≠ 0 then va else vb)
      | _, _, _ => .error ()

/-- No null pointer literal appears in the expression: every owning object
used by a member access, method invocation or dereference is non-null. -/
def CExpr.refsNonNull : CExpr → Bool
  | .lit (.vref none) => false
  | .lit _ => true
  | .propv _ _ => true
  | .member b _ => b.refsNonNull
  | .invoke b _ a => b.refsNonNull && a.refsNonNull
  | .addv l r => l.refsNonNull && r.refsNonNull
  | .divv l r => l.refsNonNull && r.refsNonNull
  | .contentOf e => e.refsNonNull
  | .condv c a b => c.refsNonNull && (a.refsNonNull && b.refsNonNull)

/-- No division node appears in the expression. -/
def CExpr.divFree : CExpr → Bool
  | .lit _ => true
  | .propv _ _ => true
  | .member b _ => b.divFree
  | .invoke b _ a => b.divFree && a.divFree
  | .addv l r => l.divFree && r.divFree
  | .divv _ _ => false
  | .contentOf e => e.divFree
  | .condv c a b => c.divFree && (a.divFree && b.divFree)

/-- The MetaProperty constructor: explicit MetaProperty(C* obj) : o(obj)
with Q_ASSERT(o); a null owning pointer is an assertion abort. -/
def mkMetaProperty (o : Option ObjId) (d : PropDescr) : Except Unit MProp :=
  match o with
  | none => .error ()
  | some x => .ok ⟨x, d⟩

/-- An all-zero heap, used by the concrete scenarios. -/
def hzero : Heap := fun _ _ => 0

/-- Concrete fixture: observable property a of object 1. -/
def fixA : MProp := ⟨1, ⟨"a", some "aChanged"⟩⟩

/-- Concrete fixture: observable property b of object 2. -/
def fixB : MProp := ⟨2, ⟨"b", some "bChanged"⟩⟩

/-- Concrete fixture: observable property d of object 4. -/
def fixD : MProp := ⟨4, ⟨"d", some "dChanged"⟩⟩

/-- Concrete fixture: target property t of object 3, no notify signal. -/
def fixT : MProp := ⟨3, ⟨"t", none⟩⟩

/-- Concrete fixture: plain property p of object 5, no notify signal. -/
def fixP : MProp := ⟨5, ⟨"p", none⟩⟩

/-- The mapper produced by the first bindTo(prop) on a fresh slot: a fresh
QSignalMapper parented to the target owner, named by the target property,
with every observable leaf bound and the call lambda connected. -/
def firstFan (e : BExpr) (tp : MProp) : FanIn :=
  ((FanIn.fresh (some tp.obj) (bindingNameOf tp)).bindAll e).addCb e (Tgt.tprop tp)

/-- The mapper after a second (observable) bindTo(prop) on the same slot:
the first mapper with its mappedInt connections dropped, the new leaves
bound in place, and the new call lambda connected. -/
def secondFan (e1 e2 : BExpr) (tp : MProp) : FanIn :=
  (FanIn.bindAll { firstFan e1 tp with callbacks := [] } e2).addCb e2 (Tgt.tprop tp)

/-- The fan-in invariants of the wiring layer: a receiver never owns two
live fan-ins with the same binding name, and a fan-in never has more than
one mappedInt callback connection. -/
def InvW (W : World) : Prop :=
  (∀ r n, slotCount W r n ≤ 1) ∧ (∀ F ∈ W.fanIns, F.callbacks.length ≤ 1)

theorem evalT_snd (h : Heap) : ∀ e : BExpr, (e.evalT h).2 = e.props := by
  intro e
  induction e with
  | lit v => rfl
  | prop p => rfl
  | bin op l r ihl ihr => simp [BExpr.evalT, BExpr.props, ihl, ihr]
  | un op e ih => simp [BExpr.evalT, BExpr.props, ih]
  | cond c a b ihc iha ihb => simp [BExpr.evalT, BExpr.props, ihc, iha, ihb]
  | wrap e ih => simp [BExpr.evalT, BExpr.props, ih]

theorem observable_eq_any : ∀ e : BExpr, e.isObservable = e.props.any MProp.observable := by
  intro e
  induction e with
  | lit v => rfl
  | prop p => simp [BExpr.isObservable, BExpr.props]
  | bin op l r ihl ihr => simp [BExpr.isObservable, BExpr.props, ihl, ihr, List.any_append]
  | un op e ih => simp [BExpr.isObservable, BExpr.props, ih]
  | cond c a b ihc iha ihb =>
      simp [BExpr.isObservable, BExpr.props, ihc, iha, ihb, List.any_append, Bool.or_assoc]
  | wrap e ih => simp [BExpr.isObservable, BExpr.props, ih]

theorem mem_insertU {α : Type} [DecidableEq α] (l : List α) (a b : α) :
    a ∈ insertU l b ↔ a = b ∨ a ∈ l := by
  unfold insertU
  by_cases hb : b ∈ l
  · simp only [if_pos hb]
    constructor
    · exact fun h => Or.inr h
    · rintro (rfl | h)
      · exact hb
      · exact h
  · simp only [if_neg hb, List.mem_append, List.mem_singleton]
    exact or_comm

theorem insertU_sub {α : Type} [DecidableEq α] (l : List α) (a b : α) (h : a ∈ l) :
    a ∈ insertU l b := (mem_insertU l a b).mpr (Or.inr h)

theorem insertU_self {α : Type} [DecidableEq α] (l : List α) (b : α) :
    b ∈ insertU l b := (mem_insertU l b b).mpr (Or.inl rfl)

theorem bind1_fields (F : FanIn) (p : MProp) :
    (F.bind1 p).parent = F.parent ∧ (F.bind1 p).name = F.name ∧
    (F.bind1 p).callbacks = F.callbacks ∧ (F.bind1 p).pendingDelete = F.pendingDelete := by
  unfold FanIn.bind1
  cases p.descr.notifySig <;> simp

theorem foldl_bind1_fields :
    ∀ (l : List MProp) (F : FanIn),
      (l.foldl FanIn.bind1 F).parent = F.parent ∧ (l.foldl FanIn.bind1 F).name = F.name ∧
      (l.foldl FanIn.bind1 F).callbacks = F.callbacks ∧
      (l.foldl FanIn.bind1 F).pendingDelete = F.pendingDelete := by
  intro l
  induction l with
  | nil => intro F; exact ⟨rfl, rfl, rfl, rfl⟩
  | cons p l ih =>
      intro F
      have h1 := bind1_fields F p
      have h2 := ih (F.bind1 p)
      simp only [List.foldl_cons]
      exact ⟨h2.1.trans h1.1, h2.2.1.trans h1.2.1, h2.2.2.1.trans h1.2.2.1,
        h2.2.2.2.trans h1.2.2.2⟩

theorem bindAll_parent (F : FanIn) (e : BExpr) : (F.bindAll e).parent = F.parent :=
  (foldl_bind1_fields e.props F).1

theorem bindAll_name (F : FanIn) (e : BExpr) : (F.bindAll e).name = F.name :=
  (foldl_bind1_fields e.props F).2.1

theorem bindAll_callbacks (F : FanIn) (e : BExpr) : (F.bindAll e).callbacks = F.callbacks :=
  (foldl_bind1_fields e.props F).2.2.1

theorem bindAll_pendingDelete (F : FanIn) (e : BExpr) :
    (F.bindAll e).pendingDelete = F.pendingDelete :=
  (foldl_bind1_fields e.props F).2.2.2

theorem bind1_srcConns_sub (F : FanIn) (p : MProp) (c : ObjId × Chan) (h : c ∈ F.srcConns) :
    c ∈ (F.bind1 p).srcConns := by
  unfold FanIn.bind1
  cases p.descr.notifySig with
  | none => exact h
  | some sig => exact insertU_sub _ _ _ (insertU_sub _ _ _ h)

theorem bind1_mappings_sub (F : FanIn) (p : MProp) (o : ObjId) (h : o ∈ F.mappings) :
    o ∈ (F.bind1 p).mappings := by
  unfold FanIn.bind1
  cases p.descr.notifySig with
  | none => exact h
  | some sig => exact insertU_sub _ _ _ h

theorem bind1_self (F : FanIn) (p : MProp) (sig : String) (hsig : p.descr.notifySig = some sig) :
    (p.obj, Chan.notifyCh sig) ∈ (F.bind1 p).srcConns ∧
    (p.obj, Chan.destroyedCh) ∈ (F.bind1 p).srcConns ∧ p.obj ∈ (F.bind1 p).mappings := by
  unfold FanIn.bind1
  rw [hsig]
  exact ⟨insertU_self _ _, insertU_sub _ _ _ (insertU_self _ _), insertU_self _ _⟩

theorem foldl_bind1_srcConns_sub :
    ∀ (l : List MProp) (F : FanIn) (c : ObjId × Chan), c ∈ F.srcConns →
      c ∈ (l.foldl FanIn.bind1 F).srcConns := by
  intro l
  induction l with
  | nil => intro F c h; exact h
  | cons p l ih =>
      intro F c h
      simp only [List.foldl_cons]
      exact ih (F.bind1 p) c (bind1_srcConns_sub F p c h)

theorem foldl_bind1_mappings_sub :
    ∀ (l : List MProp) (F : FanIn) (o : ObjId), o ∈ F.mappings →
      o ∈ (l.foldl FanIn.bind1 F).mappings := by
  intro l
  induction l with
  | nil => intro F o h; exact h
  | cons p l ih =>
      intro F o h
      simp only [List.foldl_cons]
      exact ih (F.bind1 p) o (bind1_mappings_sub F p o h)

theorem foldl_bind1_mem :
    ∀ (l : List MProp) (F : FanIn) (p : MProp) (sig : String), p ∈ l →
      p.descr.notifySig = some sig →
      (p.obj, Chan.notifyCh sig) ∈ (l.foldl FanIn.bind1 F).srcConns ∧
      (p.obj, Chan.destroyedCh) ∈ (l.foldl FanIn.bind1 F).srcConns ∧
      p.obj ∈ (l.foldl FanIn.bind1 F).mappings := by
  intro l
  induction l with
  | nil => intro F p sig hp; exact absurd hp (List.not_mem_nil p)
  | cons q l ih =>
      intro F p sig hp hsig
      simp only [List.foldl_cons]
      rcases List.mem_cons.mp hp with h | h
      · subst h
        have h1 := bind1_self F p sig hsig
        exact ⟨foldl_bind1_srcConns_sub l _ _ h1.1, foldl_bind1_srcConns_sub l _ _ h1.2.1,
          foldl_bind1_mappings_sub l _ _ h1.2.2⟩
      · exact ih (F.bind1 q) p sig h hsig

theorem bindAll_mem (F : FanIn) (e : BExpr) (p : MProp) (sig : String) (hp : p ∈ e.props)
    (hsig : p.descr.notifySig = some sig) :
    (p.obj, Chan.notifyCh sig) ∈ (F.bindAll e).srcConns ∧
    (p.obj, Chan.destroyedCh) ∈ (F.bindAll e).srcConns ∧ p.obj ∈ (F.bindAll e).mappings :=
  foldl_bind1_mem e.props F p sig hp hsig

theorem call_fanIns (W : World) (t : Tgt) (e : BExpr) : (W.call t e).fanIns = W.fanIns := by
  cases t <;> rfl

theorem call_dead (W : World) (t : Tgt) (e : BExpr) : (W.call t e).dead = W.dead := by
  cases t <;> rfl

theorem call_log (W : World) (t : Tgt) (e : BExpr) :
    (W.call t e).log = W.log ++ [⟨t, callValue t e W.heap, callReads t e, callDangl t e W⟩] := by
  cases t <;> simp [World.call, callValue, callReads, callDangl, BExpr.eval, evalT_snd]

theorem call_heap_tprop (W : World) (p : MProp) (e : BExpr) :
    (W.call (Tgt.tprop p) e).heap = writeAt W.heap p.obj p.descr.pname (e.eval W.heap) := rfl

theorem call_heap_tfunc1 (W : World) (i : Nat) (e : BExpr) :
    (W.call (Tgt.tfunc1 i) e).heap = W.heap := rfl

theorem call_heap_tfunc0 (W : World) (i : Nat) (e : BExpr) :
    (W.call (Tgt.tfunc0 i) e).heap = W.heap := rfl

theorem writeAt_self (h : Heap) (o : ObjId) (n : String) (v : Int) : writeAt h o n v o n = v := by
  simp [writeAt]

theorem runCbs_single (W : World) (e : BExpr) (t : Tgt) : W.runCbs [(e, t)] = W.call t e := by
  simp [World.runCbs]

theorem runCbs_fanIns : ∀ (cbs : List (BExpr × Tgt)) (W : World),
    (W.runCbs cbs).fanIns = W.fanIns := by
  intro cbs
  induction cbs with
  | nil => intro W; rfl
  | cons c l ih =>
      intro W
      show ((W.call c.2 c.1).runCbs l).fanIns = W.fanIns
      rw [ih, call_fanIns]

theorem runCbs_dead : ∀ (cbs : List (BExpr × Tgt)) (W : World), (W.runCbs cbs).dead = W.dead := by
  intro cbs
  induction cbs with
  | nil => intro W; rfl
  | cons c l ih =>
      intro W
      show ((W.call c.2 c.1).runCbs l).dead = W.dead
      rw [ih, call_dead]

theorem foldl_fire_fanIns (o : ObjId) (sig : String) :
    ∀ (l : List FanIn) (W : World),
      (l.foldl
        (fun W2 F =>
          if (o, Chan.notifyCh sig) ∈ F.srcConns ∧ o ∈ F.mappings then W2.runCbs F.callbacks
          else W2)
        W).fanIns = W.fanIns := by
  intro l
  induction l with
  | nil => intro W; rfl
  | cons F l ih =>
      intro W
      rw [List.foldl_cons, ih]
      split
      · exact runCbs_fanIns _ _
      · rfl

theorem fire_fanIns (W : World) (o : ObjId) (sig : String) : (W.fire o sig).fanIns = W.fanIns :=
  foldl_fire_fanIns o sig W.fanIns W

theorem fire_single (W : World) (o : ObjId) (sig : String) (F : FanIn) (hF : W.fanIns = [F]) :
    W.fire o sig =
      if (o, Chan.notifyCh sig) ∈ F.srcConns ∧ o ∈ F.mappings then W.runCbs F.callbacks
      else W := by
  unfold World.fire
  rw [hF, List.foldl_cons, List.foldl_nil]

theorem fire_nil (W : World) (o : ObjId) (sig : String) (hF : W.fanIns = []) :
    W.fire o sig = W := by
  unfold World.fire
  rw [hF, List.foldl_nil]

theorem writeProp_fanIns (W : World) (o : ObjId) (n : String) (v : Int) :
    (W.writeProp o n v).fanIns = W.fanIns := rfl

theorem writeProp_log (W : World) (o : ObjId) (n : String) (v : Int) :
    (W.writeProp o n v).log = W.log := rfl

theorem writeProp_dead (W : World) (o : ObjId) (n : String) (v : Int) :
    (W.writeProp o n v).dead = W.dead := rfl

theorem bindProp_init (h : Heap) (e : BExpr) (tp : MProp) :
    (World.init h).bindProp e tp =
      World.call
        ⟨h, [((FanIn.fresh (some tp.obj) (bindingNameOf tp)).bindAll e).addCb e (Tgt.tprop tp)],
          [], []⟩
        (Tgt.tprop tp) e := rfl

theorem countP_mapFirst {α : Type} (p q : α → Bool) (f : α → α) (hq : ∀ x, q (f x) = q x) :
    ∀ l : List α, (mapFirst p f l).countP q = l.countP q := by
  intro l
  induction l with
  | nil => rfl
  | cons x l ih =>
      unfold mapFirst
      split
      · rw [List.countP_cons, List.countP_cons, hq]
      · rw [List.countP_cons, List.countP_cons, ih]

theorem mem_mapFirst {α : Type} (p : α → Bool) (f : α → α) :
    ∀ (l : List α) (x : α), x ∈ mapFirst p f l → x ∈ l ∨ ∃ y ∈ l, x = f y := by
  intro l
  induction l with
  | nil => intro x hx; exact absurd hx (List.not_mem_nil x)
  | cons z l ih =>
      intro x hx
      unfold mapFirst at hx
      by_cases hz : p z = true
      · rw [if_pos hz] at hx
        rcases List.mem_cons.mp hx with h | h
        · exact Or.inr ⟨z, List.mem_cons_self z l, h⟩
        · exact Or.inl (List.mem_cons_of_mem z h)
      · rw [if_neg hz] at hx
        rcases List.mem_cons.mp hx with h | h
        · exact Or.inl (h ▸ List.mem_cons_self z l)
        · rcases ih x h with h2 | ⟨y, hy, hxy⟩
          · exact Or.inl (List.mem_cons_of_mem z h2)
          · exact Or.inr ⟨y, List.mem_cons_of_mem z hy, hxy⟩

theorem countP_filter_le {α : Type} (q s : α → Bool) :
    ∀ l : List α, (l.filter s).countP q ≤ l.countP q := by
  intro l
  induction l with
  | nil => exact Nat.le_refl 0
  | cons x l ih =>
      rw [List.filter_cons, List.countP_cons]
      split
      · rw [List.countP_cons]
        exact Nat.add_le_add ih (Nat.le_refl _)
      · exact Nat.le_trans ih (Nat.le_add_right _ _)

theorem countP_map_pres {α : Type} (q : α → Bool) (f : α → α) (hq : ∀ x, q (f x) = q x) :
    ∀ l : List α, (l.map f).countP q = l.countP q := by
  intro l
  induction l with
  | nil => rfl
  | cons x l ih => rw [List.map_cons, List.countP_cons, List.countP_cons, hq, ih]

theorem slotPred_rebind (r : ObjId) (n : String) (e : BExpr) (t : Tgt) (F : FanIn) :
    slotPred r n ((FanIn.bindAll { F with callbacks := [] } e).addCb e t) = slotPred r n F := by
  unfold slotPred FanIn.addCb
  rw [bindAll_parent, bindAll_name]

theorem slotPred_pend (r : ObjId) (n : String) (F : FanIn) :
    slotPred r n { F with pendingDelete := true } = slotPred r n F := rfl

theorem slotPred_fresh_none (r : ObjId) (n : String) (e : BExpr) (t : Tgt) :
    slotPred r n (((FanIn.fresh none n).bindAll e).addCb e t) = false := by
  unfold slotPred FanIn.addCb
  rw [bindAll_parent]
  simp [FanIn.fresh]


theorem rebind_callbacks (e : BExpr) (t : Tgt) (F : FanIn) :
    ((FanIn.bindAll { F with callbacks := [] } e).addCb e t).callbacks = [(e, t)] := by
  simp [FanIn.addCb, bindAll_callbacks]

theorem fresh_bind_callbacks (recv : Option ObjId) (n : String) (e : BExpr) (t : Tgt) :
    (((FanIn.fresh recv n).bindAll e).addCb e t).callbacks = [(e, t)] := by
  simp [FanIn.addCb, bindAll_callbacks, FanIn.fresh]

theorem fresh_bind_parent (recv : Option ObjId) (n : String) (e : BExpr) (t : Tgt) :
    (((FanIn.fresh recv n).bindAll e).addCb e t).parent = recv := by
  unfold FanIn.addCb
  rw [bindAll_parent]
  rfl

theorem fresh_bind_name (recv : Option ObjId) (n : String) (e : BExpr) (t : Tgt) :
    (((FanIn.fresh recv n).bindAll e).addCb e t).name = n := by
  unfold FanIn.addCb
  rw [bindAll_name]
  rfl

theorem fresh_bind_pendingDelete (recv : Option ObjId) (n : String) (e : BExpr) (t : Tgt) :
    (((FanIn.fresh recv n).bindAll e).addCb e t).pendingDelete = false := by
  unfold FanIn.addCb
  rw [bindAll_pendingDelete]
  rfl

theorem bindCore_none (W : World) (e : BExpr) (n : String) (t : Tgt) :
    W.bindCore e none n t = W.bindNew e none n t := rfl

theorem bindCore_notFound (W : World) (e : BExpr) (r : ObjId) (n : String) (t : Tgt)
    (hfind : W.fanIns.find? (slotPred r n) = none) :
    W.bindCore e (some r) n t = W.bindNew e (some r) n t := by
  unfold World.bindCore
  simp only []
  rw [hfind]

theorem bindCore_found_obs (W : World) (e : BExpr) (r : ObjId) (n : String) (t : Tgt) (F0 : FanIn)
    (hfind : W.fanIns.find? (slotPred r n) = some F0) (hobs : e.isObservable = true) :
    W.bindCore e (some r) n t =
      World.call
        { W with
          fanIns := mapFirst (slotPred r n)
            (fun F => (FanIn.bindAll { F with callbacks := [] } e).addCb e t) W.fanIns } t e := by
  unfold World.bindCore
  simp only []
  rw [hfind]
  simp only [hobs, if_pos]

theorem bindCore_found_nonObs (W : World) (e : BExpr) (r : ObjId) (n : String) (t : Tgt)
    (F0 : FanIn) (hfind : W.fanIns.find? (slotPred r n) = some F0)
    (hobs : e.isObservable = false) :
    W.bindCore e (some r) n t =
      { W.call t e with
        fanIns := mapFirst (slotPred r n)
          (fun F => { F with pendingDelete := true }) (W.call t e).fanIns } := by
  unfold World.bindCore
  simp only []
  rw [hfind]
  simp only [hobs, Bool.false_eq_true, if_false]

theorem InvW_bindNew (W : World) (e : BExpr) (recv : Option ObjId) (n : String) (t : Tgt)
    (hInv : InvW W)
    (hcnt : ∀ r2, recv = some r2 → W.fanIns.countP (slotPred r2 n) = 0) :
    InvW (W.bindNew e recv n t) := by
  constructor
  · intro r2 n2
    unfold slotCount World.bindNew
    rw [call_fanIns, List.countP_append]
    by_cases hF : slotPred r2 n2 (((FanIn.fresh recv n).bindAll e).addCb e t) = true
    · have hF2 := hF
      unfold slotPred at hF2
      rw [fresh_bind_parent, fresh_bind_name] at hF2
      have h2 := (Bool.and_eq_true _ _).mp hF2
      have hr : recv = some r2 := of_decide_eq_true h2.1
      have hn : n = n2 := of_decide_eq_true h2.2
      rw [← hn, hcnt r2 hr, Nat.zero_add]
      exact List.countP_le_length _
    · have hzero2 :
          List.countP (slotPred r2 n2) [((FanIn.fresh recv n).bindAll e).addCb e t] = 0 := by
        simp [List.countP_cons, hF]
      rw [hzero2, Nat.add_zero]
      exact hInv.1 r2 n2
  · intro F hF
    unfold World.bindNew at hF
    rw [call_fanIns] at hF
    rcases List.mem_append.mp hF with h | h
    · exact hInv.2 F h
    · rw [List.mem_singleton.mp h, fresh_bind_callbacks]
      exact Nat.le_refl 1

theorem InvW_bindCore (W : World) (e : BExpr) (recv : Option ObjId) (n : String) (t : Tgt)
    (hInv : InvW W) : InvW (W.bindCore e recv n t) := by
  cases recv with
  | none =>
      rw [bindCore_none]
      exact InvW_bindNew W e none n t hInv (fun r2 h => Option.noConfusion h)
  | some r =>
      cases hfind : W.fanIns.find? (slotPred r n) with
      | none =>
          rw [bindCore_notFound W e r n t hfind]
          refine InvW_bindNew W e (some r) n t hInv ?_
          intro r2 hr2
          have hr : r = r2 := Option.some.inj hr2
          subst hr
          exact List.countP_eq_zero.mpr (List.find?_eq_none.mp hfind)
      | some F0 =>
          by_cases hobs : e.isObservable = true
          · rw [bindCore_found_obs W e r n t F0 hfind hobs]
            constructor
            · intro r2 n2
              unfold slotCount
              rw [call_fanIns, countP_mapFirst _ _ _ (fun F => slotPred_rebind r2 n2 e t F)]
              exact hInv.1 r2 n2
            · intro F hF
              rw [call_fanIns] at hF
              rcases mem_mapFirst _ _ _ _ hF with h | ⟨y, hy, hxy⟩
              · exact hInv.2 F h
              · rw [hxy, rebind_callbacks]
                exact Nat.le_refl 1
          · have hobs2 : e.isObservable = false := Bool.not_eq_true _ ▸ eq_false_of_ne_true hobs
            rw [bindCore_found_nonObs W e r n t F0 hfind hobs2]
            constructor
            · intro r2 n2
              unfold slotCount
              simp only
              rw [countP_mapFirst _ _ _ (fun F => slotPred_pend r2 n2 F), call_fanIns]
              exact hInv.1 r2 n2
            · intro F hF
              simp only at hF
              rcases mem_mapFirst _ _ _ _ hF with h | ⟨y, hy, hxy⟩
              · rw [call_fanIns] at h
                exact hInv.2 F h
              · rw [call_fanIns] at hy
                rw [hxy]
                exact hInv.2 y hy

theorem InvW_writeProp (W : World) (o : ObjId) (n : String) (v : Int) (hInv : InvW W) :
    InvW (W.writeProp o n v) := hInv

theorem InvW_fire (W : World) (o : ObjId) (sig : String) (hInv : InvW W) :
    InvW (W.fire o sig) := by
  constructor
  · intro r2 n2
    unfold slotCount
    rw [fire_fanIns]
    exact hInv.1 r2 n2
  · intro F hF
    rw [fire_fanIns] at hF
    exact hInv.2 F hF

theorem InvW_destroyObj (W : World) (o : ObjId) (hInv : InvW W) : InvW (W.destroyObj o) := by
  constructor
  · intro r2 n2
    unfold slotCount World.destroyObj
    simp only
    rw [countP_map_pres (slotPred r2 n2) (FanIn.dropSource o) (fun F => rfl)]
    exact Nat.le_trans (countP_filter_le _ _ _) (hInv.1 r2 n2)
  · intro F hF
    unfold World.destroyObj at hF
    simp only at hF
    rcases List.mem_map.mp hF with ⟨y, hy, hxy⟩
    rw [← hxy]
    exact hInv.2 y (List.mem_of_mem_filter hy)

theorem InvW_flush (W : World) (hInv : InvW W) : InvW W.flush := by
  constructor
  · intro r2 n2
    unfold slotCount World.flush
    exact Nat.le_trans (countP_filter_le _ _ _) (hInv.1 r2 n2)
  · intro F hF
    exact hInv.2 F (List.mem_of_mem_filter hF)

theorem InvW_applyOp (W : World) (op : Op) (hInv : InvW W) : InvW (applyOp W op) := by
  cases op with
  | obind e tp => exact InvW_bindCore W e (some tp.obj) (bindingNameOf tp) (Tgt.tprop tp) hInv
  | obindF e recv n t => exact InvW_bindCore W e recv n t hInv
  | owrite o n v => exact InvW_writeProp W o n v hInv
  | ofire o sig => exact InvW_fire W o sig hInv
  | odestroy o => exact InvW_destroyObj W o hInv
  | oflush => exact InvW_flush W hInv

theorem InvW_init (h : Heap) : InvW (World.init h) := by
  constructor
  · intro r2 n2
    exact Nat.le_of_lt Nat.zero_lt_one
  · intro F hF
    exact absurd hF (List.not_mem_nil F)

theorem InvW_foldl : ∀ (ops : List Op) (W : World), InvW W → InvW (ops.foldl applyOp W) := by
  intro ops
  induction ops with
  | nil => intro W h; exact h
  | cons op ops ih =>
      intro W h
      rw [List.foldl_cons]
      exact ih (applyOp W op) (InvW_applyOp W op h)

theorem InvW_run (h : Heap) (ops : List Op) : InvW (run h ops) :=
  InvW_foldl ops (World.init h) (InvW_init h)

theorem addCb_srcConns (F : FanIn) (e : BExpr) (t : Tgt) : (F.addCb e t).srcConns = F.srcConns :=
  rfl

theorem addCb_mappings (F : FanIn) (e : BExpr) (t : Tgt) : (F.addCb e t).mappings = F.mappings :=
  rfl

theorem firstFan_callbacks (e : BExpr) (tp : MProp) :
    (firstFan e tp).callbacks = [(e, Tgt.tprop tp)] := fresh_bind_callbacks _ _ _ _

theorem firstFan_parent (e : BExpr) (tp : MProp) : (firstFan e tp).parent = some tp.obj :=
  fresh_bind_parent _ _ _ _

theorem firstFan_name (e : BExpr) (tp : MProp) : (firstFan e tp).name = bindingNameOf tp :=
  fresh_bind_name _ _ _ _

theorem firstFan_pendingDelete (e : BExpr) (tp : MProp) : (firstFan e tp).pendingDelete = false :=
  fresh_bind_pendingDelete _ _ _ _

theorem firstFan_mem (e : BExpr) (tp p : MProp) (sig : String) (hp : p ∈ e.props)
    (hsig : p.descr.notifySig = some sig) :
    (p.obj, Chan.notifyCh sig) ∈ (firstFan e tp).srcConns ∧
    (p.obj, Chan.destroyedCh) ∈ (firstFan e tp).srcConns ∧
    p.obj ∈ (firstFan e tp).mappings := by
  unfold firstFan
  rw [addCb_srcConns, addCb_mappings]
  exact bindAll_mem _ e p sig hp hsig

theorem slotPred_firstFan (e : BExpr) (tp : MProp) :
    slotPred tp.obj (bindingNameOf tp) (firstFan e tp) = true := by
  unfold slotPred
  rw [firstFan_parent, firstFan_name]
  simp

theorem secondFan_callbacks (e1 e2 : BExpr) (tp : MProp) :
    (secondFan e1 e2 tp).callbacks = [(e2, Tgt.tprop tp)] := rebind_callbacks _ _ _

theorem secondFan_mem_first (e1 e2 : BExpr) (tp p : MProp) (sig : String) (hp : p ∈ e1.props)
    (hsig : p.descr.notifySig = some sig) :
    (p.obj, Chan.notifyCh sig) ∈ (secondFan e1 e2 tp).srcConns ∧
    p.obj ∈ (secondFan e1 e2 tp).mappings := by
  unfold secondFan
  rw [addCb_srcConns, addCb_mappings]
  unfold FanIn.bindAll
  have h1 := firstFan_mem e1 tp p sig hp hsig
  refine ⟨foldl_bind1_srcConns_sub _ _ _ ?_, foldl_bind1_mappings_sub _ _ _ ?_⟩
  · exact h1.1
  · exact h1.2.2

theorem secondFan_mem_second (e1 e2 : BExpr) (tp p : MProp) (sig : String) (hp : p ∈ e2.props)
    (hsig : p.descr.notifySig = some sig) :
    (p.obj, Chan.notifyCh sig) ∈ (secondFan e1 e2 tp).srcConns ∧
    p.obj ∈ (secondFan e1 e2 tp).mappings := by
  unfold secondFan
  rw [addCb_srcConns, addCb_mappings]
  have h1 := bindAll_mem { firstFan e1 tp with callbacks := [] } e2 p sig hp hsig
  exact ⟨h1.1, h1.2.2⟩

theorem bindProp_init_fan (h : Heap) (e : BExpr) (tp : MProp) :
    (World.init h).bindProp e tp =
      World.call ⟨h, [firstFan e tp], [], []⟩ (Tgt.tprop tp) e := rfl

theorem bindProp_init_fanIns (h : Heap) (e : BExpr) (tp : MProp) :
    ((World.init h).bindProp e tp).fanIns = [firstFan e tp] := by
  rw [bindProp_init_fan, call_fanIns]

theorem bindProp_init_dead (h : Heap) (e : BExpr) (tp : MProp) :
    ((World.init h).bindProp e tp).dead = [] := by
  rw [bindProp_init_fan, call_dead]

theorem callDangl_nil (t : Tgt) (e : BExpr) (W : World) (hd : W.dead = []) :
    callDangl t e W = false := by
  unfold callDangl
  rw [hd]
  simp

theorem bindProp_twice (h : Heap) (e1 e2 : BExpr) (tp : MProp) (hobs : e2.isObservable = true) :
    ((World.init h).bindProp e1 tp).bindProp e2 tp =
      World.call
        { (World.init h).bindProp e1 tp with fanIns := [secondFan e1 e2 tp] }
        (Tgt.tprop tp) e2 := by
  have hfind :
      ((World.init h).bindProp e1 tp).fanIns.find? (slotPred tp.obj (bindingNameOf tp)) =
        some (firstFan e1 tp) := by
    rw [bindProp_init_fanIns]
    exact List.find?_cons_of_pos _ (slotPred_firstFan e1 tp)
  show ((World.init h).bindProp e1 tp).bindCore e2 (some tp.obj) (bindingNameOf tp)
      (Tgt.tprop tp) = _
  rw [bindCore_found_obs _ _ _ _ _ _ hfind hobs]
  have hmap :
      mapFirst (slotPred tp.obj (bindingNameOf tp))
          (fun F => (FanIn.bindAll { F with callbacks := [] } e2).addCb e2 (Tgt.tprop tp))
          ((World.init h).bindProp e1 tp).fanIns = [secondFan e1 e2 tp] := by
    rw [bindProp_init_fanIns]
    unfold mapFirst
    rw [if_pos (slotPred_firstFan e1 tp)]
    rfl
  rw [hmap]

theorem bind_write_fire (h : Heap) (e : BExpr) (tp p : MProp) (sig : String) (v : Int)
    (hp : p ∈ e.props) (hsig : p.descr.notifySig = some sig) :
    (((World.init h).bindProp e tp).writeProp p.obj p.descr.pname v).fire p.obj sig =
      (((World.init h).bindProp e tp).writeProp p.obj p.descr.pname v).call (Tgt.tprop tp) e ∧
    (((World.init h).bindProp e tp).writeProp p.obj p.descr.pname v).dead = [] := by
  have hfan :
      (((World.init h).bindProp e tp).writeProp p.obj p.descr.pname v).fanIns =
        [firstFan e tp] := by
    rw [writeProp_fanIns, bindProp_init_fanIns]
  have hdead :
      (((World.init h).bindProp e tp).writeProp p.obj p.descr.pname v).dead = [] := by
    rw [writeProp_dead, bindProp_init_dead]
  refine ⟨?_, hdead⟩
  have hm := firstFan_mem e tp p sig hp hsig
  rw [fire_single _ p.obj sig (firstFan e tp) hfan, if_pos ⟨hm.1, hm.2.2⟩,
    firstFan_callbacks, runCbs_single]

/-- C1: for every expression containing an observable leaf, after
bindTo(target) one firing of that leaf's change notification performs
exactly one re-evaluation of the expression (the single appended log entry,
whose reads are exactly the expression's leaves) and exactly one apply to
the target, and the applied value is the expression evaluated against the
heap holding the leaf's new value. -/
theorem claim_C1 (h : Heap) (e : BExpr) (tp p : MProp) (sig : String) (v : Int)
    (hp : p ∈ e.props) (hsig : p.descr.notifySig = some sig) :
    ((((World.init h).bindProp e tp).writeProp p.obj p.descr.pname v).fire p.obj sig).log =
      (((World.init h).bindProp e tp).writeProp p.obj p.descr.pname v).log ++
        [⟨Tgt.tprop tp,
          some (e.eval ((((World.init h).bindProp e tp).writeProp p.obj p.descr.pname v).heap)),
          e.props, false⟩] ∧
    ((((World.init h).bindProp e tp).writeProp p.obj p.descr.pname v).fire p.obj sig).heap
        tp.obj tp.descr.pname =
      e.eval ((((World.init h).bindProp e tp).writeProp p.obj p.descr.pname v).heap) := by
  obtain ⟨hfire, hdead⟩ := bind_write_fire h e tp p sig v hp hsig
  constructor
  · rw [hfire, call_log, callDangl_nil _ _ _ hdead]
    rfl
  · rw [hfire, call_heap_tprop, writeAt_self]

/-- Witness for C1 at a concrete binding: target t of object 3 bound to
property a of object 1; writing 5 into a and firing aChanged applies 5. -/
theorem claim_C1_w :
    ((((World.init hzero).bindProp (BExpr.prop fixA) fixT).writeProp fixA.obj
          fixA.descr.pname 5).fire fixA.obj "aChanged").log =
      (((World.init hzero).bindProp (BExpr.prop fixA) fixT).writeProp fixA.obj
          fixA.descr.pname 5).log ++
        [⟨Tgt.tprop fixT,
          some ((BExpr.prop fixA).eval ((((World.init hzero).bindProp (BExpr.prop fixA)
              fixT).writeProp fixA.obj fixA.descr.pname 5).heap)),
          (BExpr.prop fixA).props, false⟩] ∧
    ((((World.init hzero).bindProp (BExpr.prop fixA) fixT).writeProp fixA.obj
          fixA.descr.pname 5).fire fixA.obj "aChanged").heap fixT.obj fixT.descr.pname =
      (BExpr.prop fixA).eval ((((World.init hzero).bindProp (BExpr.prop fixA) fixT).writeProp
          fixA.obj fixA.descr.pname 5).heap) :=
  claim_C1 hzero (BExpr.prop fixA) fixT fixA "aChanged" 5 (by decide) rfl

/-- C5: the logical-and, logical-or and cond actions are eager and never
short-circuit: every eval fully evaluates both conjuncts and disjuncts and
all three cond operands (the read trace is the concatenation of the operand
traces, whatever the operand values), and only then applies the action to
the evaluated values. -/
theorem claim_C5 :
    (∀ (h : Heap) (l r : BExpr),
        ((BExpr.bin BOp.land l r).evalT h).2 = (l.evalT h).2 ++ (r.evalT h).2 ∧
        ((BExpr.bin BOp.land l r).evalT h).1 =
          (if (l.evalT h).1 ≠ 0 ∧ (r.evalT h).1 ≠ 0 then 1 else 0)) ∧
    (∀ (h : Heap) (l r : BExpr),
        ((BExpr.bin BOp.lor l r).evalT h).2 = (l.evalT h).2 ++ (r.evalT h).2 ∧
        ((BExpr.bin BOp.lor l r).evalT h).1 =
          (if (l.evalT h).1 ≠ 0 ∨ (r.evalT h).1 ≠ 0 then 1 else 0)) ∧
    (∀ (h : Heap) (c a b : BExpr),
        ((BExpr.cond c a b).evalT h).2 = (c.evalT h).2 ++ (a.evalT h).2 ++ (b.evalT h).2 ∧
        ((BExpr.cond c a b).evalT h).1 =
          (if (c.evalT h).1 ≠ 0 then (a.evalT h).1 else (b.evalT h).1)) :=
  ⟨fun _ _ _ => ⟨rfl, rfl⟩, fun _ _ _ => ⟨rfl, rfl⟩, fun _ _ _ _ => ⟨rfl, rfl⟩⟩

/-- C6: isObservable is computed structurally, as the disjunction of the
operands' observability, with a property leaf observable iff its descriptor
has a notify capability and a literal never observable; consequently it is
true iff at least one property leaf has a notify capability. -/
theorem claim_C6 :
    (∀ v : Int, (BExpr.lit v).isObservable = false) ∧
    (∀ p : MProp, (BExpr.prop p).isObservable = p.descr.notifySig.isSome) ∧
    (∀ (op : BOp) (l r : BExpr),
        (BExpr.bin op l r).isObservable = (l.isObservable || r.isObservable)) ∧
    (∀ (op : UOp) (e : BExpr), (BExpr.un op e).isObservable = e.isObservable) ∧
    (∀ c a b : BExpr,
        (BExpr.cond c a b).isObservable =
          (c.isObservable || (a.isObservable || b.isObservable))) ∧
    (∀ e : BExpr, (BExpr.wrap e).isObservable = e.isObservable) ∧
    (∀ e : BExpr, e.isObservable = true ↔ ∃ p ∈ e.props, p.descr.notifySig.isSome = true) := by
  refine ⟨fun _ => rfl, fun _ => rfl, fun _ _ _ => rfl, fun _ _ => rfl, fun _ _ _ => rfl,
    fun _ => rfl, fun e => ?_⟩
  rw [observable_eq_any, List.any_eq_true]
  exact Iff.rfl

/-- C4 as amended: every call of the private bindTo invokes the target
exactly once before returning, unconditionally, in all three paths
(fresh mapper, reused mapper, non-observable teardown); for a property or
one-argument target this evaluates the expression exactly once and applies
the result, and a property target receives the evaluated value through its
setter; a zero-argument callable target is invoked once without any
evaluation of the expression. -/
theorem claim_C4 :
    ∀ (W : World) (e : BExpr) (recv : Option ObjId) (n : String) (t : Tgt),
      (W.bindCore e recv n t).log =
        W.log ++ [⟨t, callValue t e W.heap, callReads t e, callDangl t e W⟩] ∧
      (∀ p : MProp, t = Tgt.tprop p →
        (W.bindCore e recv n t).heap = writeAt W.heap p.obj p.descr.pname (e.eval W.heap)) := by
  intro W e recv n t
  cases recv with
  | none =>
      rw [bindCore_none]
      constructor
      · rw [World.bindNew, call_log]
        rfl
      · intro p ht
        subst ht
        rw [World.bindNew, call_heap_tprop]
  | some r =>
      cases hfind : W.fanIns.find? (slotPred r n) with
      | none =>
          rw [bindCore_notFound W e r n t hfind]
          constructor
          · rw [World.bindNew, call_log]
            rfl
          · intro p ht
            subst ht
            rw [World.bindNew, call_heap_tprop]
      | some F0 =>
          by_cases hobs : e.isObservable = true
          · rw [bindCore_found_obs W e r n t F0 hfind hobs]
            constructor
            · rw [call_log]
              rfl
            · intro p ht
              subst ht
              rw [call_heap_tprop]
          · have hobs2 : e.isObservable = false := by
              cases hb : e.isObservable
              · rfl
              · exact absurd hb hobs
            rw [bindCore_found_nonObs W e r n t F0 hfind hobs2]
            constructor
            · show (W.call t e).log = _
              rw [call_log]
            · intro p ht
              subst ht
              show (W.call (Tgt.tprop p) e).heap = _
              rw [call_heap_tprop]

/-- Counterexample to C4 as stated: binding any expression to a
zero-argument callable performs one invocation with no evaluation at all
(value none in the log, no reads), while the claim demands the evaluated
result (7) to be applied. -/
theorem claim_C4_cex :
    ((World.init hzero).bindCore (BExpr.lit 7) none "n" (Tgt.tfunc0 0)).log.map
        LogEntry.value = [none] ∧
    (BExpr.lit 7).eval hzero = 7 := ⟨rfl, rfl⟩

theorem foldl_bind1_nil :
    ∀ (l : List MProp) (F : FanIn), (∀ p ∈ l, p.descr.notifySig = none) →
      l.foldl FanIn.bind1 F = F := by
  intro l
  induction l with
  | nil => intro F _; rfl
  | cons p l ih =>
      intro F hl
      rw [List.foldl_cons]
      have hp : F.bind1 p = F := by
        unfold FanIn.bind1
        rw [hl p (List.mem_cons_self p l)]
      rw [hp]
      exact ih F (fun q hq => hl q (List.mem_cons_of_mem p hq))

theorem props_notify_none (e : BExpr) (hobs : e.isObservable = false) :
    ∀ p ∈ e.props, p.descr.notifySig = none := by
  rw [observable_eq_any] at hobs
  intro p hp
  have h2 := List.any_eq_false.mp hobs p hp
  unfold MProp.observable at h2
  cases hs : p.descr.notifySig with
  | none => rfl
  | some s =>
      rw [hs] at h2
      exact absurd rfl h2

theorem bindAll_nonObs (F : FanIn) (e : BExpr) (hobs : e.isObservable = false) :
    F.bindAll e = F :=
  foldl_bind1_nil e.props F (props_notify_none e hobs)

theorem firstFan_nonObs_srcConns (e : BExpr) (tp : MProp) (hobs : e.isObservable = false) :
    (firstFan e tp).srcConns = [] ∧ (firstFan e tp).mappings = [] := by
  unfold firstFan
  rw [addCb_srcConns, addCb_mappings, bindAll_nonObs _ _ hobs]
  exact ⟨rfl, rfl⟩

/-- C3 as amended: for an expression with no observable operand, bindTo
performs exactly one evaluate-and-apply and installs no subscription.
On a fresh slot a new fan-in object is nevertheless created (contrary to
the original claim), with no source connections and no mappings, so no
notification ever triggers it and the world is unchanged by any fire; when
a fan-in already exists for the slot, it is scheduled for deferred deletion
with its subscriptions left in place (it disappears when the deferred
deletions run) and no new fan-in is created. -/
theorem claim_C3 (h : Heap) (e : BExpr) (tp : MProp) (hobs : e.isObservable = false) :
    (((World.init h).bindProp e tp).log =
        [⟨Tgt.tprop tp, some (e.eval h), e.props, false⟩] ∧
      ((World.init h).bindProp e tp).fanIns = [firstFan e tp] ∧
      (firstFan e tp).srcConns = [] ∧ (firstFan e tp).mappings = [] ∧
      (∀ (o : ObjId) (sig : String),
        ((World.init h).bindProp e tp).fire o sig = (World.init h).bindProp e tp)) ∧
    (∀ e1 : BExpr,
      (((World.init h).bindProp e1 tp).bindProp e tp).fanIns =
          [{ firstFan e1 tp with pendingDelete := true }] ∧
      (((World.init h).bindProp e1 tp).bindProp e tp).log =
          ((World.init h).bindProp e1 tp).log ++
            [⟨Tgt.tprop tp,
              some (e.eval ((World.init h).bindProp e1 tp).heap), e.props, false⟩] ∧
      ((((World.init h).bindProp e1 tp).bindProp e tp).flush).fanIns = []) := by
  have hsrc := firstFan_nonObs_srcConns e tp hobs
  constructor
  · refine ⟨?_, bindProp_init_fanIns h e tp, hsrc.1, hsrc.2, ?_⟩
    · rw [bindProp_init_fan, call_log, callDangl_nil]
      · rfl
      · rfl
    · intro o sig
      rw [fire_single _ o sig (firstFan e tp) (bindProp_init_fanIns h e tp), if_neg]
      rw [hsrc.1]
      intro hc
      exact absurd hc.1 (List.not_mem_nil _)
  · intro e1
    have hfind :
        ((World.init h).bindProp e1 tp).fanIns.find? (slotPred tp.obj (bindingNameOf tp)) =
          some (firstFan e1 tp) := by
      rw [bindProp_init_fanIns]
      exact List.find?_cons_of_pos _ (slotPred_firstFan e1 tp)
    have hred :
        ((World.init h).bindProp e1 tp).bindProp e tp =
          { ((World.init h).bindProp e1 tp).call (Tgt.tprop tp) e with
            fanIns := mapFirst (slotPred tp.obj (bindingNameOf tp))
              (fun F => { F with pendingDelete := true })
              ((((World.init h).bindProp e1 tp).call (Tgt.tprop tp) e).fanIns) } :=
      bindCore_found_nonObs _ _ _ _ _ _ hfind hobs
    have hmap :
        mapFirst (slotPred tp.obj (bindingNameOf tp))
            (fun F => { F with pendingDelete := true })
            ((((World.init h).bindProp e1 tp).call (Tgt.tprop tp) e).fanIns) =
          [{ firstFan e1 tp with pendingDelete := true }] := by
      rw [call_fanIns, bindProp_init_fanIns]
      unfold mapFirst
      rw [if_pos (slotPred_firstFan e1 tp)]
    refine ⟨?_, ?_, ?_⟩
    · rw [hred]
      exact hmap
    · rw [hred]
      show (((World.init h).bindProp e1 tp).call (Tgt.tprop tp) e).log = _
      rw [call_log, callDangl_nil _ _ _ (bindProp_init_dead h e1 tp)]
      rfl
    · rw [hred]
      show (World.flush _).fanIns = []
      unfold World.flush
      simp only
      rw [hmap]
      rfl

/-- Counterexample to C3 as stated: binding the constant expression 5 (no
observable operand) to a fresh target slot creates a new fan-in object
(fanIns grows from 0 to 1), while the claim states no new fan-in object is
created. -/
theorem claim_C3_cex :
    (World.init hzero).fanIns.length = 0 ∧
    ((World.init hzero).bindProp (BExpr.lit 5) fixT).fanIns.length = 1 := ⟨rfl, rfl⟩

/-- Witness for C3 at a concrete non-observable binding. -/
theorem claim_C3_w :
    ((World.init hzero).bindProp (BExpr.lit 5) fixT).log =
        [⟨Tgt.tprop fixT, some ((BExpr.lit 5).eval hzero), (BExpr.lit 5).props, false⟩] ∧
      ((World.init hzero).bindProp (BExpr.lit 5) fixT).fanIns = [firstFan (BExpr.lit 5) fixT] ∧
      (firstFan (BExpr.lit 5) fixT).srcConns = [] ∧ (firstFan (BExpr.lit 5) fixT).mappings = [] ∧
      (∀ (o : ObjId) (sig : String),
        ((World.init hzero).bindProp (BExpr.lit 5) fixT).fire o sig =
          (World.init hzero).bindProp (BExpr.lit 5) fixT) :=
  (claim_C3 hzero (BExpr.lit 5) fixT rfl).1

/-- C2 as amended: for every non-null (receiver, binding-name) pair, at most
one live fan-in exists at any time along any run, and every fan-in carries
at most one callback connection; a second bindTo on the same slot replaces
the first call's callback, so one source change never fires more than one
evaluate-and-apply; however, the source subscriptions installed by the
first call remain connected (binding->disconnect() only drops the mapper's
own outgoing mappedInt connection), so a source observed only by the first
binding still triggers exactly one evaluation of the second binding's
expression. -/
theorem claim_C2 :
    (∀ (h : Heap) (ops : List Op) (r : ObjId) (n : String), slotCount (run h ops) r n ≤ 1) ∧
    (∀ (h : Heap) (ops : List Op), ∀ F ∈ (run h ops).fanIns, F.callbacks.length ≤ 1) ∧
    (∀ (h : Heap) (e1 e2 : BExpr) (tp : MProp), e2.isObservable = true →
      (((World.init h).bindProp e1 tp).bindProp e2 tp).fanIns = [secondFan e1 e2 tp] ∧
      (secondFan e1 e2 tp).callbacks = [(e2, Tgt.tprop tp)] ∧
      (∀ (o : ObjId) (sig : String),
        ((((World.init h).bindProp e1 tp).bindProp e2 tp).fire o sig).log.length ≤
          (((World.init h).bindProp e1 tp).bindProp e2 tp).log.length + 1) ∧
      (∀ (p : MProp) (sig : String), p ∈ e1.props → p.descr.notifySig = some sig →
        ((((World.init h).bindProp e1 tp).bindProp e2 tp).fire p.obj sig).log =
          (((World.init h).bindProp e1 tp).bindProp e2 tp).log ++
            [⟨Tgt.tprop tp,
              some (e2.eval ((((World.init h).bindProp e1 tp).bindProp e2 tp).heap)),
              e2.props, false⟩])) := by
  refine ⟨fun h ops r n => (InvW_run h ops).1 r n, fun h ops => (InvW_run h ops).2,
    fun h e1 e2 tp hobs => ?_⟩
  have hW3 := bindProp_twice h e1 e2 tp hobs
  have hfan : (((World.init h).bindProp e1 tp).bindProp e2 tp).fanIns =
      [secondFan e1 e2 tp] := by
    rw [hW3, call_fanIns]
  have hdead : (((World.init h).bindProp e1 tp).bindProp e2 tp).dead = [] := by
    rw [hW3, call_dead]
    exact bindProp_init_dead h e1 tp
  refine ⟨hfan, secondFan_callbacks e1 e2 tp, ?_, ?_⟩
  · intro o sig
    rw [fire_single _ o sig (secondFan e1 e2 tp) hfan]
    split
    · rw [secondFan_callbacks, runCbs_single, call_log, List.length_append]
      exact Nat.le_refl _
    · exact Nat.le_succ _
  · intro p sig hp hsig
    have hm := secondFan_mem_first e1 e2 tp p sig hp hsig
    rw [fire_single _ p.obj sig (secondFan e1 e2 tp) hfan, if_pos hm,
      secondFan_callbacks, runCbs_single, call_log, callDangl_nil _ _ _ hdead]
    rfl

/-- Witness for C2 at a concrete rebind: target t is bound to property a of
object 1, then rebound to property d of object 4; firing aChanged still
performs exactly one apply, of the d expression. -/
theorem claim_C2_w :
    ((((World.init hzero).bindProp (BExpr.prop fixA) fixT).bindProp (BExpr.prop fixD)
          fixT).fire fixA.obj "aChanged").log =
      (((World.init hzero).bindProp (BExpr.prop fixA) fixT).bindProp (BExpr.prop fixD)
          fixT).log ++
        [⟨Tgt.tprop fixT,
          some ((BExpr.prop fixD).eval ((((World.init hzero).bindProp (BExpr.prop fixA)
              fixT).bindProp (BExpr.prop fixD) fixT).heap)),
          (BExpr.prop fixD).props, false⟩] :=
  (claim_C2.2.2 hzero (BExpr.prop fixA) (BExpr.prop fixD) fixT rfl).2.2.2 fixA "aChanged"
    (by decide) rfl

/-- Counterexample to C2 as stated: after rebinding the same slot from
property a of object 1 to property d of object 4, firing aChanged (a
subscription installed only by the first bindTo) still triggers an apply:
the log grows by one entry, so a subscription of the first binding is still
active. -/
theorem claim_C2_cex :
    ((((World.init hzero).bindProp (BExpr.prop fixA) fixT).bindProp (BExpr.prop fixD)
          fixT).fire 1 "aChanged").log.length =
      (((World.init hzero).bindProp (BExpr.prop fixA) fixT).bindProp (BExpr.prop fixD)
          fixT).log.length + 1 := by
  decide

/-- C7: assignment into a property accessor dispatches on the right-hand
type: assigning a plain value is an immediate set (the heap is written, no
fan-in is created or changed, nothing is logged); assigning another
accessor builds the identity-action expression over it and hands it to the
wiring layer via bindTo, and assigning an expression hands the expression
to bindTo directly — so an observable right-hand accessor yields a live
binding: after the assignment, writing the source and firing its notify
updates the left-hand property. -/
theorem claim_C7 :
    (∀ (W : World) (p : MProp) (v : Int),
        (MProp.assignVal p v W).fanIns = W.fanIns ∧ (MProp.assignVal p v W).log = W.log ∧
        (MProp.assignVal p v W).heap p.obj p.descr.pname = v) ∧
    (∀ (W : World) (lhs rhs : MProp),
        MProp.assignProp lhs rhs W = W.bindProp (BExpr.wrap (BExpr.prop rhs)) lhs) ∧
    (∀ (W : World) (lhs : MProp) (e : BExpr),
        MProp.assignExpr lhs e W = W.bindProp e lhs) ∧
    (∀ (h : Heap) (lhs rhs : MProp) (sig : String) (v : Int),
        rhs.descr.notifySig = some sig →
        (((MProp.assignProp lhs rhs (World.init h)).writeProp rhs.obj rhs.descr.pname
              v).fire rhs.obj sig).heap lhs.obj lhs.descr.pname = v) := by
  refine ⟨fun W p v => ⟨rfl, rfl, writeAt_self _ _ _ _⟩, fun W lhs rhs => rfl,
    fun W lhs e => rfl, fun h lhs rhs sig v hsig => ?_⟩
  have hp : rhs ∈ (BExpr.wrap (BExpr.prop rhs)).props := List.mem_singleton.mpr rfl
  obtain ⟨hfire, hdead⟩ :=
    bind_write_fire h (BExpr.wrap (BExpr.prop rhs)) lhs rhs sig v hp hsig
  show ((((World.init h).bindProp (BExpr.wrap (BExpr.prop rhs)) lhs).writeProp rhs.obj
      rhs.descr.pname v).fire rhs.obj sig).heap lhs.obj lhs.descr.pname = v
  rw [hfire, call_heap_tprop, writeAt_self]
  show writeAt (((World.init h).bindProp (BExpr.wrap (BExpr.prop rhs)) lhs).heap) rhs.obj
      rhs.descr.pname v rhs.obj rhs.descr.pname = v
  rw [writeAt_self]

/-- Witness for C7 at a concrete assignment: after t = a (both accessors),
writing 9 into a and firing aChanged leaves t at 9. -/
theorem claim_C7_w :
    (((MProp.assignProp fixT fixA (World.init hzero)).writeProp fixA.obj fixA.descr.pname
          9).fire fixA.obj "aChanged").heap fixT.obj fixT.descr.pname = 9 :=
  claim_C7.2.2.2 hzero fixT fixA "aChanged" 9 rfl

/-- C8 as amended: destroying the owner of one observable leaf removes
every subscription from that object and schedules the whole fan-in (not
just the one subscription) for deferred deletion; once the deferred
deletion has run, the binding is gone and any further notification does
nothing at all (so it cannot crash); however, a notification from another
leaf delivered before the deferred deletion runs still executes the
callback, whose re-evaluation dereferences the destroyed object (the
dangling read exhibited by the counterexample). -/
theorem claim_C8 (h : Heap) (e : BExpr) (tp p : MProp) (sig : String)
    (hp : p ∈ e.props) (hsig : p.descr.notifySig = some sig) (hne : p.obj ≠ tp.obj) :
    (((World.init h).bindProp e tp).destroyObj p.obj).fanIns =
        [FanIn.dropSource p.obj (firstFan e tp)] ∧
    (FanIn.dropSource p.obj (firstFan e tp)).pendingDelete = true ∧
    (∀ c ∈ (FanIn.dropSource p.obj (firstFan e tp)).srcConns, c.1 ≠ p.obj) ∧
    ((((World.init h).bindProp e tp).destroyObj p.obj).flush).fanIns = [] ∧
    (∀ (o2 : ObjId) (sig2 : String),
        ((((World.init h).bindProp e tp).destroyObj p.obj).flush).fire o2 sig2 =
          (((World.init h).bindProp e tp).destroyObj p.obj).flush) := by
  have hpend : (FanIn.dropSource p.obj (firstFan e tp)).pendingDelete = true := by
    unfold FanIn.dropSource
    simp only
    rw [firstFan_pendingDelete, Bool.false_or]
    exact decide_eq_true (firstFan_mem e tp p sig hp hsig).2.1
  have hfan2 : (((World.init h).bindProp e tp).destroyObj p.obj).fanIns =
      [FanIn.dropSource p.obj (firstFan e tp)] := by
    unfold World.destroyObj
    simp only
    rw [bindProp_init_fanIns, List.filter_cons, if_pos, List.filter_nil, List.map_cons,
      List.map_nil]
    rw [firstFan_parent]
    exact decide_eq_true (fun hs => hne (Option.some.inj hs).symm)
  have hflush : ((((World.init h).bindProp e tp).destroyObj p.obj).flush).fanIns = [] := by
    unfold World.flush
    simp only
    rw [hfan2, List.filter_cons, if_neg, List.filter_nil]
    rw [hpend]
    simp
  refine ⟨hfan2, hpend, ?_, hflush, fun o2 sig2 => fire_nil _ o2 sig2 hflush⟩
  intro c hc
  have hc2 : c ∈ (firstFan e tp).srcConns.filter (fun c2 => decide (c2.1 ≠ p.obj)) := hc
  exact of_decide_eq_true (List.mem_filter.mp hc2).2

/-- Witness for C8 at the concrete binding t = a + b: destroying object 1
(owner of a) leaves one pending-delete fan-in with no connection from 1,
and after the deferred deletion any notification leaves the world
untouched. -/
theorem claim_C8_w :
    (((World.init hzero).bindProp (BExpr.bin BOp.add (BExpr.prop fixA) (BExpr.prop fixB))
            fixT).destroyObj 1).fanIns =
        [FanIn.dropSource 1
          (firstFan (BExpr.bin BOp.add (BExpr.prop fixA) (BExpr.prop fixB)) fixT)] ∧
    (FanIn.dropSource 1
        (firstFan (BExpr.bin BOp.add (BExpr.prop fixA) (BExpr.prop fixB))
          fixT)).pendingDelete = true ∧
    (∀ c ∈ (FanIn.dropSource 1
        (firstFan (BExpr.bin BOp.add (BExpr.prop fixA) (BExpr.prop fixB)) fixT)).srcConns,
      c.1 ≠ 1) ∧
    ((((World.init hzero).bindProp (BExpr.bin BOp.add (BExpr.prop fixA) (BExpr.prop fixB))
            fixT).destroyObj 1).flush).fanIns = [] ∧
    (∀ (o2 : ObjId) (sig2 : String),
        ((((World.init hzero).bindProp
              (BExpr.bin BOp.add (BExpr.prop fixA) (BExpr.prop fixB)) fixT).destroyObj
            1).flush).fire o2 sig2 =
          (((World.init hzero).bindProp
              (BExpr.bin BOp.add (BExpr.prop fixA) (BExpr.prop fixB)) fixT).destroyObj
            1).flush) :=
  claim_C8 hzero (BExpr.bin BOp.add (BExpr.prop fixA) (BExpr.prop fixB)) fixT fixA
    "aChanged" (by decide) rfl (by decide)

/-- Counterexample to C8 as stated: with t bound to a + b, destroying
object 1 (owner of a) and then firing bChanged before the deferred deletion
runs re-executes the callback, whose evaluation reads the destroyed
object 1: the second log entry is a dangling read, i.e. the crash the claim
rules out. -/
theorem claim_C8_cex :
    ((((World.init hzero).bindProp (BExpr.bin BOp.add (BExpr.prop fixA) (BExpr.prop fixB))
              fixT).destroyObj 1).fire 2 "bChanged").log.map LogEntry.dangling =
      [false, true] := by
  decide

theorem evalV_member_ok (h : HeapV) (m : Meths) (dh : Pointees) (b : CExpr) (f : String)
    (x : ObjId) (hb : b.evalV h m dh = Except.ok (CVal.vref (some x))) :
    (CExpr.member b f).evalV h m dh = Except.ok (CVal.vint (h x f)) := by
  unfold CExpr.evalV
  rw [hb]

theorem evalV_invoke_ok (h : HeapV) (m : Meths) (dh : Pointees) (b : CExpr) (fn : String)
    (a : CExpr) (x : ObjId) (i : Int) (hb : b.evalV h m dh = Except.ok (CVal.vref (some x)))
    (ha : a.evalV h m dh = Except.ok (CVal.vint i)) :
    (CExpr.invoke b fn a).evalV h m dh = Except.ok (CVal.vint (m x fn i)) := by
  unfold CExpr.evalV
  rw [hb, ha]

theorem evalV_addv_ok (h : HeapV) (m : Meths) (dh : Pointees) (l r : CExpr) (x y : Int)
    (hl : l.evalV h m dh = Except.ok (CVal.vint x))
    (hr : r.evalV h m dh = Except.ok (CVal.vint y)) :
    (CExpr.addv l r).evalV h m dh = Except.ok (CVal.vint (x + y)) := by
  unfold CExpr.evalV
  rw [hl, hr]

theorem evalV_divv_zero (h : HeapV) (m : Meths) (dh : Pointees) (l r : CExpr) (x : Int)
    (hl : l.evalV h m dh = Except.ok (CVal.vint x))
    (hr : r.evalV h m dh = Except.ok (CVal.vint 0)) :
    (CExpr.divv l r).evalV h m dh = Except.error () := by
  unfold CExpr.evalV
  rw [hl, hr]
  rfl

theorem evalV_contentOf_ok (h : HeapV) (m : Meths) (dh : Pointees) (e : CExpr) (x : ObjId)
    (he : e.evalV h m dh = Except.ok (CVal.vref (some x))) :
    (CExpr.contentOf e).evalV h m dh = Except.ok (CVal.vint (dh x)) := by
  unfold CExpr.evalV
  rw [he]

theorem evalV_condv_ok (h : HeapV) (m : Meths) (dh : Pointees) (c a b : CExpr) (x : Int)
    (va vb : CVal) (hc : c.evalV h m dh = Except.ok (CVal.vint x))
    (ha : a.evalV h m dh = Except.ok va) (hb : b.evalV h m dh = Except.ok vb) :
    (CExpr.condv c a b).evalV h m dh = Except.ok (if x ≠ 0 then va else vb) := by
  unfold CExpr.evalV
  rw [hc, ha, hb]

theorem evalV_total (h : HeapV) (m : Meths) (dh : Pointees) :
    ∀ (e : CExpr) (t : CTy), e.ty = some t → e.refsNonNull = true → e.divFree = true →
      ∃ v : CVal, e.evalV h m dh = Except.ok v ∧ v.ty = t ∧ v.nonNull = true := by
  intro e
  induction e with
  | lit v =>
      intro t ht hn hdf
      cases v with
      | vint i => exact ⟨.vint i, rfl, Option.some.inj ht, rfl⟩
      | vref o =>
          cases o with
          | none => exact Bool.noConfusion hn
          | some x => exact ⟨.vref (some x), rfl, Option.some.inj ht, rfl⟩
  | propv o n =>
      intro t ht hn hdf
      exact ⟨.vint (h o n), rfl, Option.some.inj ht, rfl⟩
  | member b f ihb =>
      intro t ht hn hdf
      unfold CExpr.ty at ht
      cases hb : b.ty with
      | none =>
          rw [hb] at ht
          exact Option.noConfusion ht
      | some tb =>
          rw [hb] at ht
          cases tb with
          | tint => exact Option.noConfusion ht
          | tref =>
              have ht2 : CTy.tint = t := Option.some.inj ht
              obtain ⟨v, hv, hvty, hvnn⟩ := ihb CTy.tref hb hn hdf
              cases v with
              | vint i => exact CTy.noConfusion hvty
              | vref o =>
                  cases o with
                  | none => exact Bool.noConfusion hvnn
                  | some x =>
                      exact ⟨.vint (h x f), evalV_member_ok h m dh b f x hv, ht2, rfl⟩
  | invoke b fn a ihb iha =>
      intro t ht hn hdf
      unfold CExpr.ty at ht
      have hn2 := (Bool.and_eq_true _ _).mp hn
      have hdf2 := (Bool.and_eq_true _ _).mp hdf
      cases hb : b.ty with
      | none =>
          rw [hb] at ht
          exact Option.noConfusion ht
      | some tb =>
          rw [hb] at ht
          cases tb with
          | tint => exact Option.noConfusion ht
          | tref =>
              cases ha : a.ty with
              | none =>
                  rw [ha] at ht
                  exact Option.noConfusion ht
              | some ta =>
                  rw [ha] at ht
                  cases ta with
                  | tref => exact Option.noConfusion ht
                  | tint =>
                      have ht2 : CTy.tint = t := Option.some.inj ht
                      obtain ⟨v, hv, hvty, hvnn⟩ := ihb CTy.tref hb hn2.1 hdf2.1
                      obtain ⟨w, hw, hwty, hwnn⟩ := iha CTy.tint ha hn2.2 hdf2.2
                      cases v with
                      | vint i => exact CTy.noConfusion hvty
                      | vref o =>
                          cases o with
                          | none => exact Bool.noConfusion hvnn
                          | some x =>
                              cases w with
                              | vref o2 => exact CTy.noConfusion hwty
                              | vint i =>
                                  exact ⟨.vint (m x fn i),
                                    evalV_invoke_ok h m dh b fn a x i hv hw, ht2, rfl⟩
  | addv l r ihl ihr =>
      intro t ht hn hdf
      unfold CExpr.ty at ht
      have hn2 := (Bool.and_eq_true _ _).mp hn
      have hdf2 := (Bool.and_eq_true _ _).mp hdf
      cases hl : l.ty with
      | none =>
          rw [hl] at ht
          exact Option.noConfusion ht
      | some tl =>
          rw [hl] at ht
          cases tl with
          | tref => exact Option.noConfusion ht
          | tint =>
              cases hr : r.ty with
              | none =>
                  rw [hr] at ht
                  exact Option.noConfusion ht
              | some tr =>
                  rw [hr] at ht
                  cases tr with
                  | tref => exact Option.noConfusion ht
                  | tint =>
                      have ht2 : CTy.tint = t := Option.some.inj ht
                      obtain ⟨v, hv, hvty, hvnn⟩ := ihl CTy.tint hl hn2.1 hdf2.1
                      obtain ⟨w, hw, hwty, hwnn⟩ := ihr CTy.tint hr hn2.2 hdf2.2
                      cases v with
                      | vref o => exact CTy.noConfusion hvty
                      | vint x =>
                          cases w with
                          | vref o => exact CTy.noConfusion hwty
                          | vint y =>
                              exact ⟨.vint (x + y), evalV_addv_ok h m dh l r x y hv hw,
                                ht2, rfl⟩
  | divv l r ihl ihr =>
      intro t ht hn hdf
      exact Bool.noConfusion hdf
  | contentOf e ihe =>
      intro t ht hn hdf
      unfold CExpr.ty at ht
      cases he : e.ty with
      | none =>
          rw [he] at ht
          exact Option.noConfusion ht
      | some te =>
          rw [he] at ht
          cases te with
          | tint => exact Option.noConfusion ht
          | tref =>
              have ht2 : CTy.tint = t := Option.some.inj ht
              obtain ⟨v, hv, hvty, hvnn⟩ := ihe CTy.tref he hn hdf
              cases v with
              | vint i => exact CTy.noConfusion hvty
              | vref o =>
                  cases o with
                  | none => exact Bool.noConfusion hvnn
                  | some x =>
                      exact ⟨.vint (dh x), evalV_contentOf_ok h m dh e x hv, ht2, rfl⟩
  | condv c a b ihc iha ihb =>
      intro t ht hn hdf
      unfold CExpr.ty at ht
      have hn2 := (Bool.and_eq_true _ _).mp hn
      have hn3 := (Bool.and_eq_true _ _).mp hn2.2
      have hdf2 := (Bool.and_eq_true _ _).mp hdf
      have hdf3 := (Bool.and_eq_true _ _).mp hdf2.2
      cases hc : c.ty with
      | none =>
          rw [hc] at ht
          exact Option.noConfusion ht
      | some tc =>
          rw [hc] at ht
          cases tc with
          | tref => exact Option.noConfusion ht
          | tint =>
              cases hca : a.ty with
              | none =>
                  rw [hca] at ht
                  exact Option.noConfusion ht
              | some ta =>
                  rw [hca] at ht
                  cases hcb : b.ty with
                  | none =>
                      rw [hcb] at ht
                      exact Option.noConfusion ht
                  | some tb =>
                      rw [hcb] at ht
                      simp only [] at ht
                      by_cases heq : ta = tb
                      · rw [if_pos heq] at ht
                        have ht2 : ta = t := Option.some.inj ht
                        obtain ⟨v, hv, hvty, hvnn⟩ := ihc CTy.tint hc hn2.1 hdf2.1
                        obtain ⟨va, hva, hvaty, hvann⟩ := iha ta hca hn3.1 hdf3.1
                        obtain ⟨vb, hvb, hvbty, hvbnn⟩ := ihb tb hcb hn3.2 hdf3.2
                        cases v with
                        | vref o => exact CTy.noConfusion hvty
                        | vint x =>
                            refine ⟨if x ≠ 0 then va else vb,
                              evalV_condv_ok h m dh c a b x va vb hv hva hvb, ?_, ?_⟩
                            · split
                              · rw [hvaty, ht2]
                              · rw [hvbty, ← heq, ht2]
                            · split
                              · exact hvann
                              · exact hvbnn
                      · rw [if_neg heq] at ht
                        exact Option.noConfusion ht

/-- C9 as amended: a null owning-object pointer in the MetaProperty
constructor is an assertion abort, and a null base object in the
member-access or method-invocation action is an assertion abort at
evaluation; but the assertion-guarded null dereferences are not the only
runtime error path: the division action fails at runtime whenever its
divisor evaluates to zero, with every owning object non-null and live (the
counterexample), and the pointer-dereference action carries no assertion of
its own (a null operand fails without an abort).  Under the precondition
that every object reference is non-null, evaluation of a well-typed
expression built without the division action always succeeds with a value
of the static type. -/
theorem claim_C9 :
    (∀ d : PropDescr, mkMetaProperty none d = Except.error ()) ∧
    (∀ (h : HeapV) (m : Meths) (dh : Pointees) (f : String),
        (CExpr.member (CExpr.lit (CVal.vref none)) f).evalV h m dh = Except.error ()) ∧
    (∀ (h : HeapV) (m : Meths) (dh : Pointees) (fn : String) (a : CExpr),
        (CExpr.invoke (CExpr.lit (CVal.vref none)) fn a).evalV h m dh = Except.error ()) ∧
    (∀ (h : HeapV) (m : Meths) (dh : Pointees),
        (CExpr.contentOf (CExpr.lit (CVal.vref none))).evalV h m dh = Except.error ()) ∧
    (∀ (h : HeapV) (m : Meths) (dh : Pointees) (l r : CExpr) (x : Int),
        l.evalV h m dh = Except.ok (CVal.vint x) →
        r.evalV h m dh = Except.ok (CVal.vint 0) →
        (CExpr.divv l r).evalV h m dh = Except.error ()) ∧
    (∀ (h : HeapV) (m : Meths) (dh : Pointees) (e : CExpr) (t : CTy), e.ty = some t →
        e.refsNonNull = true → e.divFree = true →
        ∃ v : CVal, e.evalV h m dh = Except.ok v ∧ v.ty = t ∧ v.nonNull = true) := by
  refine ⟨fun d => rfl, fun h m dh f => rfl, fun h m dh fn a => ?_, fun h m dh => rfl,
    fun h m dh l r x hl hr => evalV_divv_zero h m dh l r x hl hr,
    fun h m dh e t ht hn hdf => evalV_total h m dh e t ht hn hdf⟩
  unfold CExpr.evalV
  rfl

/-- Witness for C9: dividing 6 by the zero-valued literal fails at runtime
though it is well-typed and every reference is non-null; a member access
through a non-null pointer to object 1 evaluates successfully to an int. -/
theorem claim_C9_w :
    ((CExpr.divv (CExpr.lit (CVal.vint 6)) (CExpr.lit (CVal.vint 0))).evalV (fun _ _ => 0)
        (fun _ _ _ => 0) (fun _ => 0) = Except.error ()) ∧
    (∃ v : CVal,
      (CExpr.member (CExpr.lit (CVal.vref (some 1))) "x").evalV (fun _ _ => 0)
          (fun _ _ _ => 0) (fun _ => 0) = Except.ok v ∧ v.ty = CTy.tint ∧
        v.nonNull = true) :=
  ⟨claim_C9.2.2.2.2.1 (fun _ _ => 0) (fun _ _ _ => 0) (fun _ => 0)
      (CExpr.lit (CVal.vint 6)) (CExpr.lit (CVal.vint 0)) 6 rfl rfl,
    claim_C9.2.2.2.2.2 (fun _ _ => 0) (fun _ _ _ => 0) (fun _ => 0)
      (CExpr.member (CExpr.lit (CVal.vref (some 1))) "x") CTy.tint rfl rfl rfl⟩

/-- Counterexample to C9 as stated: the well-typed division 6 / 0, whose
object references are all (vacuously) non-null and live, fails at runtime:
the expression language contains the ActionDiv error path that no
assertion guards, so a runtime error path other than the null-pointer
assertions exists. -/
theorem claim_C9_cex :
    (CExpr.divv (CExpr.lit (CVal.vint 6)) (CExpr.lit (CVal.vint 0))).ty = some CTy.tint ∧
    (CExpr.divv (CExpr.lit (CVal.vint 6))
        (CExpr.lit (CVal.vint 0))).refsNonNull = true ∧
    (CExpr.divv (CExpr.lit (CVal.vint 6)) (CExpr.lit (CVal.vint 0))).evalV (fun _ _ => 0)
        (fun _ _ _ => 0) (fun _ => 0) = Except.error () := ⟨rfl, rfl, rfl⟩


/-- C10 as amended: every compound-assignment operator of MetaProperty
performs an immediate read-modify-write — one get() followed by one set()
of the combined value — and the prefix increment and decrement do the same;
the postfix increment and decrement instead perform two get() calls
followed by one set() (the second get() sits inside the set argument);
none of these operators constructs an expression node, creates or changes
any fan-in, or logs a binding apply. -/
theorem claim_C10 :
    (∀ (p : MProp) (f : Int → Int → Int) (x : Int) (W : World),
        (p.opAssign f x W).1.heap p.obj p.descr.pname = f (W.heap p.obj p.descr.pname) x ∧
        (p.opAssign f x W).1.fanIns = W.fanIns ∧ (p.opAssign f x W).1.log = W.log ∧
        (p.opAssign f x W).2 =
          [AccOp.aget (W.heap p.obj p.descr.pname),
            AccOp.aset (f (W.heap p.obj p.descr.pname) x)]) ∧
    (∀ (p : MProp) (x : Int) (W : World),
        p.addA x W = p.opAssign (fun a b => a + b) x W ∧
        p.subA x W = p.opAssign (fun a b => a - b) x W ∧
        p.mulA x W = p.opAssign (fun a b => a * b) x W ∧
        p.divA x W = p.opAssign Int.tdiv x W ∧
        p.modA x W = p.opAssign Int.tmod x W ∧
        p.xorA x W = p.opAssign Int.xor x W ∧
        p.andA x W = p.opAssign Int.land x W ∧
        p.orA x W = p.opAssign Int.lor x W ∧
        p.shlA x W = p.opAssign (fun a b => a <<< b) x W ∧
        p.shrA x W = p.opAssign (fun a b => a >>> b) x W) ∧
    (∀ (p : MProp) (W : World),
        (p.incPre W).1.heap p.obj p.descr.pname = W.heap p.obj p.descr.pname + 1 ∧
        (p.incPre W).1.fanIns = W.fanIns ∧ (p.incPre W).1.log = W.log ∧
        (p.incPre W).2.1 = W.heap p.obj p.descr.pname + 1 ∧
        (p.incPre W).2.2 =
          [AccOp.aget (W.heap p.obj p.descr.pname),
            AccOp.aset (W.heap p.obj p.descr.pname + 1)]) ∧
    (∀ (p : MProp) (W : World),
        (p.decPre W).1.heap p.obj p.descr.pname = W.heap p.obj p.descr.pname - 1 ∧
        (p.decPre W).1.fanIns = W.fanIns ∧ (p.decPre W).1.log = W.log ∧
        (p.decPre W).2.1 = W.heap p.obj p.descr.pname - 1 ∧
        (p.decPre W).2.2 =
          [AccOp.aget (W.heap p.obj p.descr.pname),
            AccOp.aset (W.heap p.obj p.descr.pname - 1)]) ∧
    (∀ (p : MProp) (W : World),
        (p.incPost W).1.heap p.obj p.descr.pname = W.heap p.obj p.descr.pname + 1 ∧
        (p.incPost W).1.fanIns = W.fanIns ∧ (p.incPost W).1.log = W.log ∧
        (p.incPost W).2.1 = W.heap p.obj p.descr.pname ∧
        (p.incPost W).2.2 =
          [AccOp.aget (W.heap p.obj p.descr.pname), AccOp.aget (W.heap p.obj p.descr.pname),
            AccOp.aset (W.heap p.obj p.descr.pname + 1)]) ∧
    (∀ (p : MProp) (W : World),
        (p.decPost W).1.heap p.obj p.descr.pname = W.heap p.obj p.descr.pname - 1 ∧
        (p.decPost W).1.fanIns = W.fanIns ∧ (p.decPost W).1.log = W.log ∧
        (p.decPost W).2.1 = W.heap p.obj p.descr.pname ∧
        (p.decPost W).2.2 =
          [AccOp.aget (W.heap p.obj p.descr.pname), AccOp.aget (W.heap p.obj p.descr.pname),
            AccOp.aset (W.heap p.obj p.descr.pname - 1)]) :=
  ⟨fun _ _ _ _ => ⟨writeAt_self _ _ _ _, rfl, rfl, rfl⟩,
    fun _ _ _ => ⟨rfl, rfl, rfl, rfl, rfl, rfl, rfl, rfl, rfl, rfl⟩,
    fun _ _ => ⟨writeAt_self _ _ _ _, rfl, rfl, rfl, rfl⟩,
    fun _ _ => ⟨writeAt_self _ _ _ _, rfl, rfl, rfl, rfl⟩,
    fun _ _ => ⟨writeAt_self _ _ _ _, rfl, rfl, rfl, rfl⟩,
    fun _ _ => ⟨writeAt_self _ _ _ _, rfl, rfl, rfl, rfl⟩⟩

/-- Counterexample to C10 as stated: the postfix increment performs two
get() calls (its trace has two gets before the set), not the single get()
the claim states. -/
theorem claim_C10_cex :
    (fixP.incPost (World.init hzero)).2.2 =
        [AccOp.aget 0, AccOp.aget 0, AccOp.aset 1] ∧
    (fixP.incPost (World.init hzero)).2.2.countP AccOp.isGet = 2 := ⟨rfl, rfl⟩

/-- Witness for C4 at a concrete binding of property a to property t:
one log entry carrying the evaluated value, and the target heap written. -/
theorem claim_C4_w :
    ((World.init hzero).bindCore (BExpr.prop fixA) (some fixT.obj) (bindingNameOf fixT)
        (Tgt.tprop fixT)).log =
      (World.init hzero).log ++
        [⟨Tgt.tprop fixT, callValue (Tgt.tprop fixT) (BExpr.prop fixA) (World.init hzero).heap,
          callReads (Tgt.tprop fixT) (BExpr.prop fixA),
          callDangl (Tgt.tprop fixT) (BExpr.prop fixA) (World.init hzero)⟩] ∧
    ((World.init hzero).bindCore (BExpr.prop fixA) (some fixT.obj) (bindingNameOf fixT)
        (Tgt.tprop fixT)).heap =
      writeAt (World.init hzero).heap fixT.obj fixT.descr.pname
        ((BExpr.prop fixA).eval (World.init hzero).heap) :=
  ⟨(claim_C4 (World.init hzero) (BExpr.prop fixA) (some fixT.obj) (bindingNameOf fixT)
      (Tgt.tprop fixT)).1,
    (claim_C4 (World.init hzero) (BExpr.prop fixA) (some fixT.obj) (bindingNameOf fixT)
      (Tgt.tprop fixT)).2 fixT rfl⟩
